import Mathlib

/-!
# apikit: the extraction and aggregation pipeline

A shallow embedding of the Go packages `internal/utils`, `internal/config`,
`internal/content`, `internal/source` and `internal/client`, followed by
theorems about them.

Conventions of the embedding.

* A Go `map[K]V` is an association list with distinct keys, kept in insertion
  order (`GoMap`).  Where the code ranges over a map, the order of the visit is
  a parameter (`MapOrder`), because Go leaves it unspecified.
* A Go function returning `(T, error)` that returns the zero value of `T`
  whenever the error is not nil becomes a function into `Except Failure T`:
  `.error (.error msg)` is `return <zero>, errors.New(msg)` and
  `.error (.panic msg)` is a run-time panic that unwinds through the caller.
* `fmt.Errorf("prefix: %w", err)` is the concatenation of the prefix and the
  message of `err`.
* Go `string` is `String`, Go `int` is `Int`; a slice that the code tests
  against `nil` is an `Option (List _)`, any other slice is a `List`.
* Pointers stored in slices are taken to be non-nil; loggers and mutexes have no
  effect on results and are left out.
* Third-party behaviour (`net/url`, `regexp`, `strconv.ParseFloat`, `htmlquery`,
  `compress/*`) is a parameter, the structure `StdLib`.  Its calls return a value
  or an error; a query of `htmlquery` can also panic.
-/

set_option autoImplicit false
set_option linter.dupNamespace false

deriving instance DecidableEq for Except

namespace ApiKit

/-! ## Go runtime: failures and maps -/

/-- The two ways a Go call can fail to produce its value: an `error` result or a panic. -/
inductive Failure where
  | error (msg : String)
  | panic (msg : String)
deriving DecidableEq, Repr

/-- Go `map[K]V`: entries in insertion order, keys distinct. -/
abbrev GoMap (K V : Type) := List (K × V)

namespace GoMap

variable {K V : Type} [DecidableEq K]

/-- The comma-ok read `v, ok := m[k]`. -/
def lookup : GoMap K V → K → Option V
  | [], _ => none
  | (k', v) :: rest, k => if k' = k then some v else lookup rest k

/-- The assignment `m[k] = v`. -/
def store : GoMap K V → K → V → GoMap K V
  | [], k, v => [(k, v)]
  | (k', v') :: rest, k, v => if k' = k then (k, v) :: rest else (k', v') :: store rest k v

/-- The statement `delete(m, k)`. -/
def delete : GoMap K V → K → GoMap K V
  | [], _ => []
  | (k', v') :: rest, k => if k' = k then rest else (k', v') :: delete rest k

/-- The keys of the map. -/
def keys (m : GoMap K V) : List K := m.map Prod.fst

end GoMap

/-- The statement `if err != nil { return <zero>, fmt.Errorf(pre + "%w", err) }` applied to the
outcome of a call: an error is wrapped, a panic unwinds unchanged. -/
def wrapError {α : Type} (pre : String) : Except Failure α → Except Failure α
  | .ok a => .ok a
  | .error (.error msg) => .error (.error (pre ++ msg))
  | .error (.panic msg) => .error (.panic msg)

/-- Two's complement wrap-around of a machine integer of the given width. -/
def wrapInt (bits : Nat) (x : Int) : Int :=
  (x + 2 ^ (bits - 1)) % 2 ^ bits - 2 ^ (bits - 1)

/-- A `float64`, given by its IEEE 754 binary64 bit pattern. -/
structure Float64 where
  bits : Nat
deriving DecidableEq, Repr

/-- A value stored in `interface{}` by the extraction: a `string`, an `int` or a `float64`. -/
inductive Value where
  | string (s : String)
  | int (n : Int)
  | float (f : Float64)
deriving DecidableEq, Repr

/-- An outgoing `http.Request`: its URL and headers. -/
structure Request where
  Url : String
  Header : GoMap String String
deriving DecidableEq, Repr

/-- An `http.Response` as the code reads it. -/
structure Response where
  StatusCode : Int
  /-- Result of `io.ReadAll(response.Body)`; byte slices are modelled by strings. -/
  Body : Except String String
  /-- Result of `response.Header.Get("Content-Encoding")`. -/
  ContentEncoding : String

/-- The environment of a call: the wall clock and the network, with counters of the readings
and of the requests made so far. -/
structure World where
  /-- Successive readings of `time.Now()`, in nanoseconds since the Unix epoch. -/
  clock : Nat → Int
  /-- Number of clock readings made. -/
  ticks : Nat
  /-- Outcomes of successive `h.Do(request)` calls. -/
  transport : Nat → Request → Except String Response
  /-- Number of `h.Do` calls made. -/
  attempts : Nat

/-- One reading of `time.Now()`. -/
def World.now (w : World) : Int × World :=
  (w.clock w.ticks, { w with ticks := w.ticks + 1 })

/-- One call `h.Do(request)`. -/
def World.Do (w : World) (request : Request) : Except String Response × World :=
  (w.transport w.attempts request, { w with attempts := w.attempts + 1 })

/-- The method `Time.UnixMilli` of an instant given in nanoseconds. -/
def UnixMilli (t : Int) : Int := t / 1000000

/-- The method `Time.Unix` of an instant given in nanoseconds. -/
def UnixSec (t : Int) : Int := t / 1000000000

/-- The predicate `unicode.IsSpace`. -/
def isSpace (c : Char) : Bool :=
  let n := c.toNat
  n = 0x09 || n = 0x0A || n = 0x0B || n = 0x0C || n = 0x0D || n = 0x20 || n = 0x85 ||
  n = 0xA0 || n = 0x1680 || (0x2000 ≤ n && n ≤ 0x200A) || n = 0x2028 || n = 0x2029 ||
  n = 0x202F || n = 0x205F || n = 0x3000

/-- The function `strings.TrimSpace`. -/
def TrimSpace (s : String) : String :=
  String.mk ((s.toList.dropWhile isSpace).reverse.dropWhile isSpace).reverse

/-- Value of a decimal digit, if the character is one. -/
def digitValue (c : Char) : Option Nat :=
  if 48 ≤ c.toNat ∧ c.toNat ≤ 57 then some (c.toNat - 48) else none

/-- The digits of `strconv.ParseUint(s, 10, _)` read left to right onto the accumulator. -/
def parseDigits : List Char → Nat → Option Nat
  | [], acc => some acc
  | c :: rest, acc =>
    match digitValue c with
    | none => none
    | some d => parseDigits rest (acc * 10 + d)

/-- The call `strconv.ParseInt(s, 10, 0)` on a platform whose `int` has `bits` bits: an optional
sign, then decimal digits only, then the range check.  The text of the error quotes `s`
plainly. -/
def ParseInt (bits : Nat) (s : String) : Except String Int :=
  let syntaxError := "strconv.ParseInt: parsing \"" ++ s ++ "\": invalid syntax"
  let rangeError := "strconv.ParseInt: parsing \"" ++ s ++ "\": value out of range"
  match s.toList with
  | [] => .error syntaxError
  | c :: rest =>
    let neg := c = '-'
    let digits := if c = '+' ∨ c = '-' then rest else c :: rest
    match digits with
    | [] => .error syntaxError
    | _ =>
      match parseDigits digits 0 with
      | none => .error syntaxError
      | some un =>
        if un ≥ 2 ^ 64 then .error rangeError
        else if !neg && un ≥ 2 ^ (bits - 1) then .error rangeError
        else if neg && un > 2 ^ (bits - 1) then .error rangeError
        else .ok (if neg then -(un : Int) else (un : Int))

/-! ## Package `utils` -/

namespace utils

/-- The struct `set[T]`: a map from the elements to `true`. -/
structure set (T : Type) where
  data : GoMap T Bool
deriving DecidableEq, Repr

/-- The constructor `NewEmptySet`. -/
def NewEmptySet {T : Type} : set T := { data := [] }

/-- The method `set.Add`: the report and the set after the call. -/
def set.Add {T : Type} [DecidableEq T] (s : set T) (element : T) : Bool × set T :=
  match s.data.lookup element with
  | some _ => (false, s)
  | none => (true, { data := s.data.store element true })

/-- The method `set.Contains`. -/
def set.Contains {T : Type} [DecidableEq T] (s : set T) (element : T) : Bool :=
  match s.data.lookup element with
  | some _ => true
  | none => false

/-- The method `set.Remove`: the report and the set after the call. -/
def set.Remove {T : Type} [DecidableEq T] (s : set T) (element : T) : Bool × set T :=
  match s.data.lookup element with
  | none => (false, s)
  | some _ => (true, { data := s.data.delete element })

/-- The method `set.Clear`. -/
def set.Clear {T : Type} (_s : set T) : set T := { data := [] }

/-- The loop of `IsDistinct`, with the map `m` of the entries seen so far. -/
def IsDistinct.loop {T : Type} [DecidableEq T] : GoMap T Bool → List T → Bool
  | _, [] => true
  | m, entry :: rest =>
    match m.lookup entry with
    | some _ => false
    | none => IsDistinct.loop (m.store entry true) rest

/-- The function `IsDistinct`; a nil slice panics. -/
def IsDistinct {T : Type} [DecidableEq T] (s : Option (List T)) : Except Failure Bool :=
  match s with
  | none => .error (.panic "utils: provided slice is nil")
  | some l => .ok (IsDistinct.loop [] l)

/-- The struct `cacheable[T]`; the zero value of `T` is `default`. -/
structure cacheable (T : Type) where
  value : T
  isSet : Bool
  ttlEnd : Int

/-- The constructor `NewCacheable`. -/
def NewCacheable {T : Type} [Inhabited T] : cacheable T :=
  { value := default, isSet := false, ttlEnd := 0 }

/-- The method `cacheable.Get`; the clock is read only when the slot is set with an expiry. -/
def cacheable.Get {T : Type} [Inhabited T] (c : cacheable T) (w : World) : (T × Bool) × World :=
  if !c.isSet then ((default, false), w)
  else if c.ttlEnd ≠ -1 then
    if c.ttlEnd ≤ UnixMilli w.now.1 then ((default, false), w.now.2)
    else ((c.value, true), w.now.2)
  else ((c.value, true), w)

/-- The method `cacheable.Set`. -/
def cacheable.Set {T : Type} (_c : cacheable T) (value : T) : cacheable T :=
  { value := value, isSet := true, ttlEnd := -1 }

/-- The method `cacheable.SetWithTTL`; `ttl` is a `time.Duration`, in nanoseconds. -/
def cacheable.SetWithTTL {T : Type} (_c : cacheable T) (value : T) (ttl : Int) (w : World) :
    cacheable T × World :=
  ({ value := value, isSet := true, ttlEnd := UnixMilli (w.now.1 + ttl) }, w.now.2)

/-- The method `cacheable.IsSet`. -/
def cacheable.IsSet {T : Type} (c : cacheable T) (w : World) : Bool × World :=
  if !c.isSet then (false, w)
  else if c.ttlEnd ≠ -1 then
    if c.ttlEnd ≤ UnixMilli w.now.1 then (false, w.now.2)
    else (true, w.now.2)
  else (true, w)

/-- The struct `inMemoryMapCacheEntry[T]`. -/
structure inMemoryMapCacheEntry (T : Type) where
  value : T
  ttlEnd : Int
deriving DecidableEq, Repr

/-- The struct `inMemoryMapCache[T]`; the entries it points to are never modified. -/
structure inMemoryMapCache (T : Type) where
  values : GoMap String (inMemoryMapCacheEntry T)
deriving DecidableEq, Repr

/-- The constructor `NewEmptyCache`. -/
def NewEmptyCache {T : Type} : inMemoryMapCache T := { values := [] }

/-- The method `inMemoryMapCacheEntry.CheckTTL`; the clock is read only when the end is not
-1. -/
def inMemoryMapCacheEntry.CheckTTL {T : Type} (entry : inMemoryMapCacheEntry T) (w : World) :
    Bool × World :=
  if entry.ttlEnd = -1 then (true, w)
  else (decide (entry.ttlEnd ≤ UnixSec w.now.1), w.now.2)

/-- The method `inMemoryMapCache.Set`. -/
def inMemoryMapCache.Set {T : Type} (cache : inMemoryMapCache T) (key : String) (value : T) :
    inMemoryMapCache T :=
  { values := cache.values.store key { value := value, ttlEnd := -1 } }

/-- The method `inMemoryMapCache.SetWithTTLEnd`; `ttlEnd` is an instant, in nanoseconds since
the epoch. -/
def inMemoryMapCache.SetWithTTLEnd {T : Type} (cache : inMemoryMapCache T) (key : String)
    (value : T) (ttlEnd : Int) (w : World) : inMemoryMapCache T × World :=
  if UnixSec w.now.1 ≤ UnixSec ttlEnd then (cache, w.now.2)
  else
    ({ values := cache.values.store key { value := value, ttlEnd := UnixSec ttlEnd } }, w.now.2)

/-- The method `inMemoryMapCache.SetWithTTL`; `ttl` is a `time.Duration`, in nanoseconds.  The
clock is read for the end, and again inside `SetWithTTLEnd`. -/
def inMemoryMapCache.SetWithTTL {T : Type} (cache : inMemoryMapCache T) (key : String)
    (value : T) (ttl : Int) (w : World) : inMemoryMapCache T × World :=
  cache.SetWithTTLEnd key value (w.now.1 + ttl) w.now.2

/-- The method `inMemoryMapCache.Get`. -/
def inMemoryMapCache.Get {T : Type} [Inhabited T] (cache : inMemoryMapCache T) (key : String)
    (w : World) : (T × Bool) × World :=
  match cache.values.lookup key with
  | none => ((default, false), w)
  | some entry =>
    if !(entry.CheckTTL w).1 then ((default, false), (entry.CheckTTL w).2)
    else ((entry.value, true), (entry.CheckTTL w).2)

/-- The method `inMemoryMapCache.IsSet`. -/
def inMemoryMapCache.IsSet {T : Type} (cache : inMemoryMapCache T) (key : String) (w : World) :
    Bool × World :=
  match cache.values.lookup key with
  | none => (false, w)
  | some entry => entry.CheckTTL w

/-- The method `inMemoryMapCache.Remove`: the report and the cache after the call. -/
def inMemoryMapCache.Remove {T : Type} (cache : inMemoryMapCache T) (key : String) :
    Bool × inMemoryMapCache T :=
  match cache.values.lookup key with
  | none => (false, cache)
  | some _ => (true, { values := cache.values.delete key })

end utils

/-! ## Third-party behaviour -/

/-- The part of an `html.Node` the code reads. -/
structure Node where
  /-- Result of `htmlquery.OutputHTML(node, false)`. -/
  inner : String
  /-- Result of `htmlquery.OutputHTML(node, true)`. -/
  outer : String
  /-- Attributes, as read by `htmlquery.SelectAttr`. -/
  attrs : GoMap String String
deriving DecidableEq, Repr

/-- Behaviour of the libraries the code calls. -/
structure StdLib where
  /-- Width of the platform `int` in bits. -/
  intSize : Nat
  /-- The error of `url.Parse`, none when it succeeds; `http.NewRequestWithContext` with method
  GET and a non-nil context fails with that error and not otherwise. -/
  urlParse : String → Option String
  /-- The error of `regexp.Compile`, none when it succeeds. -/
  regexpCompile : String → Option String
  /-- The submatches `regexp.MustCompile(re).FindStringSubmatch(s)`, nil being the empty list. -/
  FindStringSubmatch : String → String → List String
  /-- The call `strconv.ParseFloat(s, 64)`. -/
  ParseFloat : String → Except String Float64
  /-- The call `htmlquery.Parse(strings.NewReader(s))`. -/
  Parse : String → Except String Node
  /-- The call `htmlquery.QueryAll(doc, xpath)`; `htmlquery.Query` returns its first node.  The
  call returns the nodes or an error, or it panics: the library raises a panic while it
  evaluates some expressions that it compiles, such as a `contains` with a number for an
  argument. -/
  QueryAll : Node → String → Except Failure (List Node)
  /-- Inflating a gzip stream: `gzip.NewReader` followed by `io.ReadAll`. -/
  gunzip : String → Except String (Except String String)
  /-- Inflating a raw deflate stream with `io.ReadAll(flate.NewReader(_))`. -/
  inflate : String → Except String String

/-! ## Package `config` -/

namespace config

/-- The type `VariableType`, an `int`. -/
abbrev VariableType := Int
/-- The type `ExtractionStrategy`, an `int`. -/
abbrev ExtractionStrategy := Int

/-- The constant `String` of `VariableType`. -/
def VariableType.String : VariableType := 0
/-- The constant `Int` of `VariableType`. -/
def VariableType.Int : VariableType := 1
/-- The constant `Float` of `VariableType`. -/
def VariableType.Float : VariableType := 2

/-- The constant `First` of `ExtractionStrategy`. -/
def ExtractionStrategy.First : ExtractionStrategy := 0
/-- The constant `Single` of `ExtractionStrategy`. -/
def ExtractionStrategy.Single : ExtractionStrategy := 1

/-- The struct `EndpointValueConfiguration`. -/
structure EndpointValueConfiguration where
  Name : String
  SourceName : String
  SourceValueName : String
deriving DecidableEq, Repr

/-- The struct `EndpointConfiguration`. -/
structure EndpointConfiguration where
  Name : String
  Values : List EndpointValueConfiguration
deriving DecidableEq, Repr

/-- The struct `SourceValueConfiguration`; `Type_` is the Go field `Type`. -/
structure SourceValueConfiguration where
  Name : String
  Xpath : String
  ExtractionStrategy : Int
  ExtractionTrim : Bool
  ExtractionRegex : String
  ExtractionRegexIndex : Int
  Type_ : Int
deriving DecidableEq, Repr

/-- The struct `SourceConfiguration`. -/
structure SourceConfiguration where
  Name : String
  Url : String
  CachingEnable : Bool
  CachingLifeTimeSeconds : Int
  Retries : Int
  HttpHeaders : GoMap String String
  TimeoutSeconds : Int
  Values : List SourceValueConfiguration
deriving DecidableEq, Repr

/-- The struct `ApiKitConfiguration`; both slices are tested against nil. -/
structure ApiKitConfiguration where
  Sources : Option (List SourceConfiguration)
  Endpoints : Option (List EndpointConfiguration)
deriving DecidableEq, Repr

/-- The method `EndpointConfiguration.isValid`. -/
def EndpointConfiguration.isValid (c : EndpointConfiguration) : Bool × String :=
  if c.Name.length = 0 then (false, "invalid endpoint name")
  else (true, "")

/-- The method `EndpointValueConfiguration.isValid`. -/
def EndpointValueConfiguration.isValid (c : EndpointValueConfiguration) : Bool × String :=
  if c.Name.length = 0 then (false, "invalid endpoint value name")
  else if c.SourceName.length = 0 then (false, "invalid endpoint value source name")
  else if c.SourceValueName.length = 0 then (false, "invalid endpoint value source value name")
  else (true, "")

/-- The method `SourceConfiguration.isValid`. -/
def SourceConfiguration.isValid (lib : StdLib) (c : SourceConfiguration) : Bool × String :=
  if c.Name.length = 0 then (false, "invalid source name")
  else if (lib.urlParse c.Url).isSome then (false, "invalid source url")
  else if c.CachingLifeTimeSeconds < 0 then (false, "invalid caching life time that is out of range")
  else if c.Retries < 0 then (false, "invalid retries count that is out of range")
  else if c.TimeoutSeconds < 0 then (false, "invalid timeout seconds that is out of range")
  else (true, "")

/-- The method `SourceValueConfiguration.isValid`. -/
def SourceValueConfiguration.isValid (lib : StdLib) (c : SourceValueConfiguration) :
    Bool × String :=
  if c.Name.length = 0 then (false, "invalid source value name")
  else if c.Xpath.length = 0 then (false, "invalid xpath value")
  else if (lib.regexpCompile c.ExtractionRegex).isSome then
    (false, "invalid regex that could not be parsed")
  else if c.ExtractionRegexIndex < 0 then
    (false, "invalid regex match index that is out of range")
  else (true, "")

/-- Inner loop of `isValid` over the values of one source: the set of value names, or the
message of the early return. -/
def isValid.sourceValues (lib : StdLib) :
    utils.set String → List SourceValueConfiguration → Except String (utils.set String)
  | sourceValues, [] => .ok sourceValues
  | sourceValues, value :: rest =>
    if !(value.isValid lib).1 then .error (value.isValid lib).2
    else if !(sourceValues.Add value.Name).1 then .error "duplicate source value name found"
    else isValid.sourceValues lib (sourceValues.Add value.Name).2 rest

/-- First loop of `isValid`, over the sources: the map `sourcesValues`, or the message of the
early return. -/
def isValid.sources (lib : StdLib) :
    GoMap String (utils.set String) → List SourceConfiguration →
      Except String (GoMap String (utils.set String))
  | sourcesValues, [] => .ok sourcesValues
  | sourcesValues, source :: rest =>
    if !(source.isValid lib).1 then .error (source.isValid lib).2
    else
      match isValid.sourceValues lib utils.NewEmptySet source.Values with
      | .error msg => .error msg
      | .ok sourceValues =>
        match sourcesValues.lookup source.Name with
        | some _ => .error "duplicate source name found"
        | none => isValid.sources lib (sourcesValues.store source.Name sourceValues) rest

/-- Inner loop of `isValid` over the values of one endpoint: the set of value names, or the
message of the early return. -/
def isValid.endpointValues (sourcesValues : GoMap String (utils.set String)) :
    utils.set String → List EndpointValueConfiguration → Except String (utils.set String)
  | endpointValues, [] => .ok endpointValues
  | endpointValues, value :: rest =>
    if !value.isValid.1 then .error value.isValid.2
    else if !(endpointValues.Add value.Name).1 then .error "duplicate endpoint value name found"
    else
      match sourcesValues.lookup value.SourceName with
      | none => .error "endpoint references non existing source"
      | some targetSource =>
        if !targetSource.Contains value.SourceValueName then
          .error "endpoint references non existing source value"
        else isValid.endpointValues sourcesValues (endpointValues.Add value.Name).2 rest

/-- Second loop of `isValid`, over the endpoints.  The map `endpointsValues` is read when the
endpoint name is checked, and the set of the endpoint is stored into `sourcesValues`, as in the
source. -/
def isValid.endpoints :
    GoMap String (utils.set String) → GoMap String (utils.set String) →
      List EndpointConfiguration → Except String Unit
  | _, _, [] => .ok ()
  | sourcesValues, endpointsValues, endpoint :: rest =>
    if !endpoint.isValid.1 then .error endpoint.isValid.2
    else
      match isValid.endpointValues sourcesValues utils.NewEmptySet endpoint.Values with
      | .error msg => .error msg
      | .ok endpointValues =>
        match endpointsValues.lookup endpoint.Name with
        | some _ => .error "duplicate endpoint name found"
        | none =>
          isValid.endpoints (sourcesValues.store endpoint.Name endpointValues) endpointsValues rest

/-- The method `ApiKitConfiguration.isValid`. -/
def ApiKitConfiguration.isValid (lib : StdLib) (c : ApiKitConfiguration) : Bool × String :=
  match c.Sources with
  | none => (false, "uninitialized sources collection")
  | some sources =>
    match c.Endpoints with
    | none => (false, "uninitialized endpoints collection")
    | some endpoints =>
      match isValid.sources lib [] sources with
      | .error msg => (false, msg)
      | .ok sourcesValues =>
        match isValid.endpoints sourcesValues [] endpoints with
        | .error msg => (false, msg)
        | .ok _ => (true, "")

/-- The function `Validate`. -/
def Validate (lib : StdLib) (c : ApiKitConfiguration) : Bool × String :=
  c.isValid lib

end config

/-! ## Package `content` -/

namespace content

/-- The struct `htmlContent`. -/
structure htmlContent where
  document : Node
deriving DecidableEq, Repr

/-- The struct `htmlContentElement`. -/
structure htmlContentElement where
  node : Node
deriving DecidableEq, Repr

/-- What a call of a pre-process callback does: it returns its two results, or it panics. -/
inductive PreprocessOutcome where
  | returned (value : String) (err : Option String)
  | panicked (msg : String)
deriving DecidableEq, Repr

/-- The type `HtmlContentValuePreprocess`. -/
abbrev HtmlContentValuePreprocess := String → PreprocessOutcome

/-- What a call of `GetFirstElement` or `GetSingleElement` does: it returns its three results,
or the panic of the query unwinds through it, the methods having no `recover`. -/
inductive ElementOutcome where
  | returned (element : Option htmlContentElement) (found : Bool) (err : Option String)
  | panicked (msg : String)
deriving DecidableEq, Repr

/-- The call `htmlquery.Query(doc, xpath)`: the first node of `QueryAll`, nil when there is
none; it fails and panics where `QueryAll` does. -/
def Query (lib : StdLib) (doc : Node) (xpath : String) : Except Failure (Option Node) :=
  match lib.QueryAll doc xpath with
  | .error f => .error f
  | .ok nodes => .ok nodes.head?

/-- The function `CreateHtmlContent`. -/
def CreateHtmlContent (lib : StdLib) (html : String) : Except Failure htmlContent :=
  if html.length = 0 then .error (.error "content: invalid empty html source provided")
  else
    match lib.Parse html with
    | .error e => .error (.error ("content: failed to parse the html content: " ++ e))
    | .ok node => .ok { document := node }

/-- The function `createHtmlContentElement`. -/
def createHtmlContentElement (node : Option Node) : Except String htmlContentElement :=
  match node with
  | none => .error "content: element node is nil"
  | some n => .ok { node := n }

/-- The loop of `GetAllElements` over the nodes found. -/
def GetAllElements.loop :
    List Node → List htmlContentElement → Except Failure (List htmlContentElement)
  | [], elements => .ok elements
  | node :: rest, elements =>
    match createHtmlContentElement (some node) with
    | .error err => .error (.error ("content: failed to create the html element: " ++ err))
    | .ok element => GetAllElements.loop rest (elements ++ [element])

/-- The method `htmlContent.GetAllElements`. -/
def htmlContent.GetAllElements (lib : StdLib) (h : htmlContent) (xpath : String) :
    Except Failure (List htmlContentElement) :=
  match lib.QueryAll h.document xpath with
  | .error (.panic p) => .error (.panic p)
  | .error (.error e) => .error (.error ("content: failed to query for nodes: " ++ e))
  | .ok nodes => GetAllElements.loop nodes []

/-- The method `htmlContent.GetRawContent`. -/
def htmlContent.GetRawContent (h : htmlContent) : Except Failure String :=
  .ok h.document.outer

/-- The method `htmlContent.GetFirstElement`: the element, the found flag and the error. -/
def htmlContent.GetFirstElement (lib : StdLib) (h : htmlContent) (xpath : String) :
    ElementOutcome :=
  match Query lib h.document xpath with
  | .error (.panic p) => .panicked p
  | .error (.error e) =>
    .returned none false (some ("content: failed to query for the first node: " ++ e))
  | .ok none => .returned none false none
  | .ok (some node) =>
    match createHtmlContentElement (some node) with
    | .error e => .returned none true (some ("content: failed to create the html element: " ++ e))
    | .ok element => .returned (some element) true none

/-- The method `htmlContent.GetSingleElement`: the element, the found flag and the error.  The
error of the second return wraps a nil error, which `fmt` prints as `%!w(<nil>)`. -/
def htmlContent.GetSingleElement (lib : StdLib) (h : htmlContent) (xpath : String) :
    ElementOutcome :=
  match lib.QueryAll h.document xpath with
  | .error (.panic p) => .panicked p
  | .error (.error e) => .returned none false (some ("content: failed to query for nodes: " ++ e))
  | .ok nodes =>
    match nodes with
    | [node] =>
      match createHtmlContentElement (some node) with
      | .error e => .returned none true (some ("content: failed to create the html element: " ++ e))
      | .ok element => .returned (some element) true none
    | _ => .returned none true (some "content: multiple matching nodes found: %!w(<nil>)")

/-- The method `htmlContentElement.GetAttributeValue`: the value and the error.  A panic of the
callback is recovered into an error, the value staying empty. -/
def htmlContentElement.GetAttributeValue (h : htmlContentElement) (name : String)
    (preprocess : Option HtmlContentValuePreprocess) : String × Option String :=
  if name.length = 0 then ("", some "content: invalid attribute name provided")
  else
    let value := (h.node.attrs.lookup name).getD ""
    match preprocess with
    | some f =>
      match f value with
      | .returned preprocessValue err => (preprocessValue, err)
      | .panicked panicErr =>
        ("", some ("content: attribute value preprocessing failed: " ++ panicErr))
    | none => (value, none)

/-- The method `htmlContentElement.GetInnerText`: the value and the error.  A panic of the
callback is recovered into an error, the value staying empty. -/
def htmlContentElement.GetInnerText (h : htmlContentElement)
    (preprocess : Option HtmlContentValuePreprocess) : String × Option String :=
  let value := h.node.inner
  match preprocess with
  | some f =>
    match f value with
    | .returned preprocessValue err => (preprocessValue, err)
    | .panicked panicErr =>
      ("", some ("content: inner text value preprocessing failed: " ++ panicErr))
  | none => (value, none)

/-- The method `htmlContentElement.GetAttributeValueFloat`. -/
def htmlContentElement.GetAttributeValueFloat (lib : StdLib) (h : htmlContentElement)
    (name : String) (preprocess : Option HtmlContentValuePreprocess) : Except Failure Float64 :=
  match h.GetAttributeValue name preprocess with
  | (_, some err) =>
    .error (.error ("content: failed to access attribute float value: " ++ err))
  | (value, none) =>
    match lib.ParseFloat value with
    | .error err =>
      .error (.error ("content: failed to parse the attribute value as float64: " ++ err))
    | .ok valueF => .ok valueF

/-- The method `htmlContentElement.GetAttributeValueInt`. -/
def htmlContentElement.GetAttributeValueInt (lib : StdLib) (h : htmlContentElement)
    (name : String) (preprocess : Option HtmlContentValuePreprocess) : Except Failure Int :=
  match h.GetAttributeValue name preprocess with
  | (_, some err) =>
    .error (.error ("content: failed to access attribute int value: " ++ err))
  | (value, none) =>
    match ParseInt lib.intSize value with
    | .error err =>
      .error (.error ("content: failed to parse the attribute value as int: " ++ err))
    | .ok valueI64 =>
      if valueI64 > 2147483647 then
        .error (.error "content: the target integer value is overflowing")
      else .ok valueI64

/-- The method `htmlContentElement.GetAttributeValueString`. -/
def htmlContentElement.GetAttributeValueString (h : htmlContentElement)
    (name : String) (preprocess : Option HtmlContentValuePreprocess) : Except Failure String :=
  match h.GetAttributeValue name preprocess with
  | (_, some err) =>
    .error (.error ("content: failed to access attribute string value: " ++ err))
  | (value, none) => .ok value

/-- The method `htmlContentElement.GetInnerTextFloat`. -/
def htmlContentElement.GetInnerTextFloat (lib : StdLib) (h : htmlContentElement)
    (preprocess : Option HtmlContentValuePreprocess) : Except Failure Float64 :=
  match h.GetInnerText preprocess with
  | (_, some err) =>
    .error (.error ("content: failed to access inner text float value: " ++ err))
  | (value, none) =>
    match lib.ParseFloat value with
    | .error err =>
      .error (.error ("content: failed to parse the inner text value as float64: " ++ err))
    | .ok valueF => .ok valueF

/-- The method `htmlContentElement.GetInnerTextInt`. -/
def htmlContentElement.GetInnerTextInt (lib : StdLib) (h : htmlContentElement)
    (preprocess : Option HtmlContentValuePreprocess) : Except Failure Int :=
  match h.GetInnerText preprocess with
  | (_, some err) =>
    .error (.error ("content: failed to access inner text int value: " ++ err))
  | (value, none) =>
    match ParseInt lib.intSize value with
    | .error err =>
      .error (.error ("content: failed to parse the inner text value as int: " ++ err))
    | .ok valueI64 =>
      if valueI64 > 2147483647 then
        .error (.error "content: the target integer value is overflowing")
      else .ok valueI64

/-- The method `htmlContentElement.GetInnerTextString`. -/
def htmlContentElement.GetInnerTextString (h : htmlContentElement)
    (preprocess : Option HtmlContentValuePreprocess) : Except Failure String :=
  match h.GetInnerText preprocess with
  | (_, some err) =>
    .error (.error ("content: failed to access inner text string value: " ++ err))
  | (value, none) => .ok value

end content

/-! ## Package `source` -/

namespace source

/-- The interface `Source`, as a caller sees one source during one request: what each method
returns. -/
structure Source where
  /-- The value is none for the nil interface. -/
  GetValue : String → Except Failure (Option Value)
  GetValues : Option (List String) → Except Failure (GoMap String Value)

/-- The function `GetDecodedHttpBody`. -/
def GetDecodedHttpBody (lib : StdLib) (body : String) (contentEncoding : String) :
    Except Failure String :=
  if contentEncoding = "" then .ok body
  else if contentEncoding = "gzip" then
    match lib.gunzip body with
    | .error err => .error (.error ("source: failed to create the gzip reader: " ++ err))
    | .ok (.error err) =>
      .error (.error ("source: failed to read the decoded gzip body: " ++ err))
    | .ok (.ok decoded) => .ok decoded
  else if contentEncoding = "deflate" then
    match lib.inflate body with
    | .error err => .error (.error ("source: failed to read the decoded deflate body: " ++ err))
    | .ok decoded => .ok decoded
  else .error (.error "source: unsupported content encoding")

/-- The header loop of `GetHtmlViaHttp`: the header map after it, or the error of the early
return. -/
def GetHtmlViaHttp.headers :
    List (String × String) → GoMap String String → Except Failure (GoMap String String)
  | [], header => .ok header
  | (key, value) :: rest, header =>
    if key.length = 0 then .error (.error "source: header with invalid key provided")
    else if value.length = 0 then .error (.error "source: header with invalid value provided")
    else GetHtmlViaHttp.headers rest (header.store key value)

/-- The request loop of `GetHtmlViaHttp` with `attemptsLeft` attempts left: the response with
status 200 that ended it, or none when the attempts ran out. -/
def GetHtmlViaHttp.attempt (request : Request) : Nat → World → Option Response × World
  | 0, w => (none, w)
  | attemptsLeft + 1, w =>
    match (w.Do request).1 with
    | .ok response =>
      if response.StatusCode = 200 then (some response, (w.Do request).2)
      else GetHtmlViaHttp.attempt request attemptsLeft (w.Do request).2
    | .error _ => GetHtmlViaHttp.attempt request attemptsLeft (w.Do request).2

/-- The function `GetHtmlViaHttp`.  The version string of the user agent is left empty and
header keys are kept as written; the timeout acts only through the transport. -/
def GetHtmlViaHttp (lib : StdLib) (cfg : config.SourceConfiguration) (w : World) :
    Except Failure String × World :=
  match lib.urlParse cfg.Url with
  | some err =>
    (.error (.error ("source: failed to create the extraction http request: " ++ err)), w)
  | none =>
    match GetHtmlViaHttp.headers cfg.HttpHeaders [("user-agent", "ApiKit/")] with
    | .error f => (.error f, w)
    | .ok header =>
      let request : Request := { Url := cfg.Url, Header := header }
      let attemptsLeft := wrapInt lib.intSize (cfg.Retries + 1)
      match GetHtmlViaHttp.attempt request attemptsLeft.toNat w with
      | (none, w1) =>
        (.error (.error "source: extraction http request retries count exceeded"), w1)
      | (some response, w1) =>
        match response.Body with
        | .error err =>
          (.error (.error ("source: failed to read the response body content: " ++ err)), w1)
        | .ok body =>
          if body.length = 0 then (.error (.error "source: the response body is empty"), w1)
          else
            (wrapError "source: failed to decode the response body: "
              (GetDecodedHttpBody lib body response.ContentEncoding), w1)

/-- The struct `source`; a compiled regular expression is identified by its pattern. -/
structure source where
  htmlContentCache : utils.cacheable (Option content.htmlContent)
  valueKeys : GoMap String Bool
  valueRegex : GoMap String String
  cfg : config.SourceConfiguration

/-- First loop of `CreateSource`: the keys of the declared values. -/
def CreateSource.valueKeys :
    List config.SourceValueConfiguration → GoMap String Bool → GoMap String Bool
  | [], valueKeys => valueKeys
  | sourceValue :: rest, valueKeys =>
    CreateSource.valueKeys rest (valueKeys.store sourceValue.Name true)

/-- Second loop of `CreateSource`: the compiled expressions, keyed by their pattern. -/
def CreateSource.valueRegex (lib : StdLib) :
    List config.SourceValueConfiguration → GoMap String String →
      Except Failure (GoMap String String)
  | [], valueRegex => .ok valueRegex
  | sourceValue :: rest, valueRegex =>
    if sourceValue.ExtractionRegex.length = 0 then CreateSource.valueRegex lib rest valueRegex
    else
      match lib.regexpCompile sourceValue.ExtractionRegex with
      | some err =>
        .error (.error ("source: failed to compile the source value extraction regex: " ++ err))
      | none =>
        CreateSource.valueRegex lib rest
          (valueRegex.store sourceValue.ExtractionRegex sourceValue.ExtractionRegex)

/-- The function `CreateSource`, for non-nil client, configuration and logger. -/
def CreateSource (lib : StdLib) (c : config.SourceConfiguration) : Except Failure source :=
  match CreateSource.valueRegex lib c.Values [] with
  | .error f => .error f
  | .ok valueRegex =>
    .ok { htmlContentCache := utils.NewCacheable
          valueKeys := CreateSource.valueKeys c.Values []
          valueRegex := valueRegex
          cfg := c }

/-- The key loop of `AreValueKeysValid`. -/
def AreValueKeysValid.loop (valueKeys : GoMap String Bool) : List String → Bool
  | [] => true
  | key :: rest =>
    match valueKeys.lookup key with
    | none => false
    | some _ => AreValueKeysValid.loop valueKeys rest

/-- The method `source.AreValueKeysValid`; it panics where `IsDistinct` does. -/
def source.AreValueKeysValid (s : source) (keys : Option (List String)) : Except Failure Bool :=
  match utils.IsDistinct keys with
  | .error f => .error f
  | .ok false => .ok false
  | .ok true => .ok (AreValueKeysValid.loop s.valueKeys (keys.getD []))

/-- The method `source.GetHtmlContent`: the content, the source and the world after the call. -/
def source.GetHtmlContent (lib : StdLib) (s : source) (w : World) :
    Except Failure content.htmlContent × source × World :=
  match s.htmlContentCache.Get w with
  | ((some html, true), w1) => (.ok html, s, w1)
  | (_, w1) =>
    match GetHtmlViaHttp lib s.cfg w1 with
    | (.error f, w2) =>
      (wrapError "source: failed to access html content via http: " (.error f), s, w2)
    | (.ok html, w2) =>
      match content.CreateHtmlContent lib html with
      | .error f => (wrapError "source: failed to create the html content: " (.error f), s, w2)
      | .ok htmlContent =>
        if s.cfg.CachingEnable then
          let ttl := wrapInt 64 (s.cfg.CachingLifeTimeSeconds * 1000000000)
          let stored := s.htmlContentCache.SetWithTTL (some htmlContent) ttl w2
          (.ok htmlContent, { s with htmlContentCache := stored.1 }, stored.2)
        else (.ok htmlContent, s, w2)

/-- The search of `GetSourceValue` for the configuration of a key: the last one of that name. -/
def GetSourceValue.find (key : String) :
    List config.SourceValueConfiguration → Option config.SourceValueConfiguration →
      Option config.SourceValueConfiguration
  | [], sourceValueConfig => sourceValueConfig
  | c :: rest, sourceValueConfig =>
    if c.Name = key then GetSourceValue.find key rest (some c)
    else GetSourceValue.find key rest sourceValueConfig

/-- The closure `sourceValuePreprocess` built by `GetSourceValue`.  An index below zero passes
the length check and panics in the indexing. -/
def GetSourceValue.sourceValuePreprocess (lib : StdLib) (s : source)
    (sourceValueConfig : config.SourceValueConfiguration) : content.HtmlContentValuePreprocess :=
  fun input =>
    let trimmed := if sourceValueConfig.ExtractionTrim then TrimSpace input else input
    match s.valueRegex.lookup sourceValueConfig.ExtractionRegex with
    | some regex =>
      let found := lib.FindStringSubmatch regex trimmed
      if sourceValueConfig.ExtractionRegexIndex ≥ (found.length : Int) then
        .returned "" (some "source: source value extraction regex index out of matches range")
      else if sourceValueConfig.ExtractionRegexIndex < 0 then
        .panicked
          ("runtime error: index out of range [" ++
            toString sourceValueConfig.ExtractionRegexIndex ++ "]")
      else .returned (found.getD sourceValueConfig.ExtractionRegexIndex.toNat "") none
    | none => .returned trimmed none

/-- The method `source.GetSourceValue`. -/
def source.GetSourceValue (lib : StdLib) (s : source) (key : String)
    (html : content.htmlContent) : Except Failure Value :=
  match GetSourceValue.find key s.cfg.Values none with
  | none => .error (.error "source: failed to access the target source value configuration")
  | some sourceValueConfig =>
    let selected : Except Failure content.htmlContentElement :=
      if sourceValueConfig.ExtractionStrategy = config.ExtractionStrategy.First then
        match html.GetFirstElement lib sourceValueConfig.Xpath with
        | .panicked p => .error (.panic p)
        | .returned _ _ (some err) =>
          .error (.error ("source: failed to extract first element via xpath: " ++ err))
        | .returned _ false none =>
          .error (.error "source: target first element to extract not found: %!w(<nil>)")
        | .returned none true none => .error (.panic "runtime error: nil pointer dereference")
        | .returned (some element) true none => .ok element
      else if sourceValueConfig.ExtractionStrategy = config.ExtractionStrategy.Single then
        match html.GetSingleElement lib sourceValueConfig.Xpath with
        | .panicked p => .error (.panic p)
        | .returned _ _ (some err) =>
          .error (.error ("source: failed to extract single element via xpath: " ++ err))
        | .returned _ false none =>
          .error (.error "source: target single element to extract not found: %!w(<nil>)")
        | .returned none true none => .error (.panic "runtime error: nil pointer dereference")
        | .returned (some element) true none => .ok element
      else .error (.error "source: invliad extraction strategy specified")
    match selected with
    | .error f => .error f
    | .ok sourceValueElement =>
      let sourceValuePreprocess := GetSourceValue.sourceValuePreprocess lib s sourceValueConfig
      if sourceValueConfig.Type_ = config.VariableType.Float then
        match sourceValueElement.GetInnerTextFloat lib (some sourceValuePreprocess) with
        | .error f => wrapError "source: failed to get inner text float value: " (.error f)
        | .ok value => .ok (.float value)
      else if sourceValueConfig.Type_ = config.VariableType.Int then
        match sourceValueElement.GetInnerTextInt lib (some sourceValuePreprocess) with
        | .error f => wrapError "source: failed to get inner text int value: " (.error f)
        | .ok value => .ok (.int value)
      else if sourceValueConfig.Type_ = config.VariableType.String then
        match sourceValueElement.GetInnerTextString (some sourceValuePreprocess) with
        | .error f => wrapError "source: failed to get inner text string value: " (.error f)
        | .ok value => .ok (.string value)
      else .error (.error "source: invalid source value type specified")

/-- The key loop of `GetValuesNoLock`. -/
def GetValuesNoLock.loop (lib : StdLib) (s : source) (htmlContent : content.htmlContent) :
    List String → GoMap String Value → Except Failure (GoMap String Value)
  | [], result => .ok result
  | key :: rest, result =>
    match s.GetSourceValue lib key htmlContent with
    | .error f => wrapError "source: failed to access the source value: " (.error f)
    | .ok value => GetValuesNoLock.loop lib s htmlContent rest (result.store key value)

/-- The method `source.GetValuesNoLock`: the mapping, the source and the world after the
call. -/
def source.GetValuesNoLock (lib : StdLib) (s : source) (w : World) (keys : Option (List String)) :
    Except Failure (GoMap String Value) × source × World :=
  match s.AreValueKeysValid keys with
  | .error f => (.error f, s, w)
  | .ok false => (.error (.error "source: invalid values keys provided"), s, w)
  | .ok true =>
    match s.GetHtmlContent lib w with
    | (.error f, s1, w1) =>
      (wrapError "source: failed to access the html content: " (.error f), s1, w1)
    | (.ok htmlContent, s1, w1) =>
      (GetValuesNoLock.loop lib s1 htmlContent (keys.getD []) [], s1, w1)

/-- The method `source.GetValues`: the mapping, the source and the world after the call. -/
def source.GetValues (lib : StdLib) (s : source) (w : World) (keys : Option (List String)) :
    Except Failure (GoMap String Value) × source × World :=
  match s.GetValuesNoLock lib w keys with
  | (r, s1, w1) => (wrapError "source: failed to access the source values: " r, s1, w1)

/-- The method `source.GetValue`: the value, the source and the world after the call.  A key
missing from the mapping reads as the nil interface, none here. -/
def source.GetValue (lib : StdLib) (s : source) (w : World) (key : String) :
    Except Failure (Option Value) × source × World :=
  match s.GetValuesNoLock lib w (some [key]) with
  | (.error f, s1, w1) =>
    (wrapError "source: failed to access the source values: " (.error f), s1, w1)
  | (.ok values, s1, w1) => (.ok (values.lookup key), s1, w1)

/-- The interface value of a source in a given world: what its methods return when called
there. -/
def source.toSource (lib : StdLib) (w : World) (s : source) : Source :=
  { GetValue := fun key => (s.GetValue lib w key).1
    GetValues := fun keys => (s.GetValues lib w keys).1 }

end source

/-! ## Package `client` -/

namespace client

/-- The struct `endpointLookup`. -/
structure endpointLookup where
  endpointSourcesWithSourceValuesLookup : GoMap String (GoMap String (List String))
  sourceValueNameToEndpointValueNameLookup : GoMap String String
deriving DecidableEq, Repr

/-- The constant `lookupKeySeparator`. -/
def lookupKeySeparator : String := ";"

/-- The key `fmt.Sprintf("%s%s%s", sourceName, lookupKeySeparator, sourceValueName)`. -/
def lookupKey (sourceName sourceValueName : String) : String :=
  sourceName ++ lookupKeySeparator ++ sourceValueName

/-- The method `endpointLookup.GetEndpointSourcesWithSourceValueNames`. -/
def endpointLookup.GetEndpointSourcesWithSourceValueNames (l : endpointLookup)
    (endpointName : String) : Except Failure (GoMap String (List String)) :=
  match l.endpointSourcesWithSourceValuesLookup.lookup endpointName with
  | none => .error (.error "client: specified endpoint not present in lookup")
  | some endpointSourcesWithSourceValuesNames => .ok endpointSourcesWithSourceValuesNames

/-- The method `endpointLookup.GetEndpointValueName`. -/
def endpointLookup.GetEndpointValueName (l : endpointLookup)
    (sourceName sourceValueName : String) : Except Failure String :=
  match l.sourceValueNameToEndpointValueNameLookup.lookup (lookupKey sourceName sourceValueName) with
  | none =>
    .error (.error
      "client: specified pair of source and value are not matching and endpoint value")
  | some endpointValueName => .ok endpointValueName

/-- Inner loop of `createEndpointLookup` over the values of one endpoint: the map of the
endpoint and the rename map after it. -/
def createEndpointLookup.values :
    List config.EndpointValueConfiguration → GoMap String (List String) → GoMap String String →
      GoMap String (List String) × GoMap String String
  | [], sourcesWithSourceValuesLookup, sourceValueNameToEndpointValueNameLookup =>
    (sourcesWithSourceValuesLookup, sourceValueNameToEndpointValueNameLookup)
  | endpointValueConfig :: rest, sourcesWithSourceValuesLookup,
      sourceValueNameToEndpointValueNameLookup =>
    let updated :=
      match sourcesWithSourceValuesLookup.lookup endpointValueConfig.SourceName with
      | none =>
        sourcesWithSourceValuesLookup.store endpointValueConfig.SourceName
          [endpointValueConfig.SourceValueName]
      | some names =>
        sourcesWithSourceValuesLookup.store endpointValueConfig.SourceName
          (names ++ [endpointValueConfig.SourceValueName])
    createEndpointLookup.values rest updated
      (sourceValueNameToEndpointValueNameLookup.store
        (lookupKey endpointValueConfig.SourceName endpointValueConfig.SourceValueName)
        endpointValueConfig.Name)

/-- Outer loop of `createEndpointLookup` over the endpoints. -/
def createEndpointLookup.endpoints :
    List config.EndpointConfiguration → GoMap String (GoMap String (List String)) →
      GoMap String String → endpointLookup
  | [], endpointSourcesWithSourceValuesLookup, sourceValueNameToEndpointValueNameLookup =>
    { endpointSourcesWithSourceValuesLookup := endpointSourcesWithSourceValuesLookup
      sourceValueNameToEndpointValueNameLookup := sourceValueNameToEndpointValueNameLookup }
  | endpointConfig :: rest, endpointSourcesWithSourceValuesLookup,
      sourceValueNameToEndpointValueNameLookup =>
    let built :=
      createEndpointLookup.values endpointConfig.Values [] sourceValueNameToEndpointValueNameLookup
    createEndpointLookup.endpoints rest
      (endpointSourcesWithSourceValuesLookup.store endpointConfig.Name built.1) built.2

/-- The function `createEndpointLookup`; ranging over a nil slice visits nothing. -/
def createEndpointLookup (c : config.ApiKitConfiguration) : Except Failure endpointLookup :=
  .ok (createEndpointLookup.endpoints (c.Endpoints.getD []) [] [])

/-- The struct `apiKitClient`. -/
structure apiKitClient where
  sources : GoMap String source.Source
  lookup : endpointLookup

/-- The source loop of `CreateNamedApiKitClient`; `w` is the world the sources are called
in. -/
def CreateNamedApiKitClient.sources (lib : StdLib) (w : World) :
    List config.SourceConfiguration → GoMap String source.Source →
      Except Failure (GoMap String source.Source)
  | [], sources => .ok sources
  | sourceConfig :: rest, sources =>
    match source.CreateSource lib sourceConfig with
    | .error f => wrapError "client: failed to create source instance: " (.error f)
    | .ok created =>
      CreateNamedApiKitClient.sources lib w rest
        (sources.store sourceConfig.Name (created.toSource lib w))

/-- The function `CreateNamedApiKitClient`, for non-nil http client, configuration and logger;
the name only labels the logger. -/
def CreateNamedApiKitClient (lib : StdLib) (w : World) (c : config.ApiKitConfiguration) :
    Except Failure apiKitClient :=
  match CreateNamedApiKitClient.sources lib w (c.Sources.getD []) [] with
  | .error f => .error f
  | .ok sources =>
    match createEndpointLookup c with
    | .error f => wrapError "client: failed to create the client endpoint lookup: " (.error f)
    | .ok lookup => .ok { sources := sources, lookup := lookup }

/-- The function `CreateApiKitClient`. -/
def CreateApiKitClient (lib : StdLib) (w : World) (c : config.ApiKitConfiguration) :
    Except Failure apiKitClient :=
  CreateNamedApiKitClient lib w c

/-- The order in which the two `range` loops of `Get` visit their maps, which Go leaves
unspecified: for the map of an endpoint, and for the values returned by the source of a given
name. -/
structure MapOrder where
  sources : GoMap String (List String) → List (String × List String)
  values : String → GoMap String Value → List (String × Value)

/-- A visiting order is admissible when every visit is a permutation of the entries. -/
def MapOrder.Admissible (o : MapOrder) : Prop :=
  (∀ m, (o.sources m).Perm m) ∧ ∀ name m, (o.values name m).Perm m

/-- The visiting order that follows the insertion order. -/
def MapOrder.insertion : MapOrder :=
  { sources := fun m => m, values := fun _ m => m }

/-- Inner loop of `Get` over the values one source returned. -/
def Get.rename (lookup : endpointLookup) (sourceName : String) :
    List (String × Value) → GoMap String Value → Except Failure (GoMap String Value)
  | [], result => .ok result
  | (sourceValueName, sourceValue) :: rest, result =>
    match lookup.GetEndpointValueName sourceName sourceValueName with
    | .error f =>
      wrapError "client: failed to access the endpoint value name via lookup: " (.error f)
    | .ok endpointValueName =>
      Get.rename lookup sourceName rest (result.store endpointValueName sourceValue)

/-- Outer loop of `Get` over the sources of the endpoint. -/
def Get.visit (o : MapOrder) (c : apiKitClient) :
    List (String × List String) → GoMap String Value → Except Failure (GoMap String Value)
  | [], result => .ok result
  | (sourceName, sourceValueNames) :: rest, result =>
    match c.sources.lookup sourceName with
    | none => .error (.error "client: specified source not found")
    | some source =>
      match source.GetValues (some sourceValueNames) with
      | .error f => wrapError "client: failed to access the source values: " (.error f)
      | .ok sourceValues =>
        match Get.rename c.lookup sourceName (o.values sourceName sourceValues) result with
        | .error f => .error f
        | .ok renamed => Get.visit o c rest renamed

/-- The method `apiKitClient.Get`. -/
def apiKitClient.Get (o : MapOrder) (c : apiKitClient) (endpointName : String) :
    Except Failure (GoMap String Value) :=
  match c.lookup.GetEndpointSourcesWithSourceValueNames endpointName with
  | .error f => wrapError "client: failed to access the endpoint via lookup: " (.error f)
  | .ok sourceValuesMap => Get.visit o c (o.sources sourceValuesMap) []

end client

/-! ## Properties and scenarios used by the theorems -/

namespace client

end client

/-- The document of the end-to-end scenario. -/
def scenarioDocument : String := "<span id=\"price\"> $123.45 </span>"

/-- The `float64` nearest to 123.45, which is what the literal denotes. -/
def scenarioPrice : Float64 := { bits := 0x405EDCCCCCCCCCCD }

/-- The source value "price" of the scenario. -/
def priceValue : config.SourceValueConfiguration :=
  { Name := "price", Xpath := "//span[@id='price']"
    ExtractionStrategy := config.ExtractionStrategy.First
    ExtractionTrim := true, ExtractionRegex := "([0-9.]+)", ExtractionRegexIndex := 1
    Type_ := config.VariableType.Float }

/-- The source "stock" of the scenario. -/
def stockSource : config.SourceConfiguration :=
  { Name := "stock", Url := "http://example.com/", CachingEnable := true
    CachingLifeTimeSeconds := 60, Retries := 2, HttpHeaders := [], TimeoutSeconds := 5
    Values := [priceValue] }

/-- The endpoint "quote" of the scenario, exposing stock/price as "last". -/
def quoteEndpoint : config.EndpointConfiguration :=
  { Name := "quote"
    Values := [{ Name := "last", SourceName := "stock", SourceValueName := "price" }] }

/-- The configuration of the scenario. -/
def quoteConfiguration : config.ApiKitConfiguration :=
  { Sources := some [stockSource], Endpoints := some [quoteEndpoint] }

/-- Two endpoints exposing the same source value under different names. -/
def sharedValueConfiguration : config.ApiKitConfiguration :=
  { Sources := some [stockSource]
    Endpoints := some [quoteEndpoint,
      { Name := "ticker"
        Values := [{ Name := "px", SourceName := "stock", SourceValueName := "price" }] }] }

/-- Two endpoints of the same name. -/
def duplicateEndpointConfiguration : config.ApiKitConfiguration :=
  { Sources := some [stockSource]
    Endpoints := some [quoteEndpoint,
      { Name := "quote"
        Values := [{ Name := "px", SourceName := "stock", SourceValueName := "price" }] }] }

/-- A second endpoint whose value names the first endpoint where a source is expected. -/
def danglingConfiguration : config.ApiKitConfiguration :=
  { Sources := some [stockSource]
    Endpoints := some [quoteEndpoint,
      { Name := "summary"
        Values := [{ Name := "value", SourceName := "quote", SourceValueName := "last" }] }] }

/-- An endpoint that declares no value. -/
def emptyEndpointConfiguration : config.ApiKitConfiguration :=
  { Sources := some [stockSource], Endpoints := some [{ Name := "quote", Values := [] }] }

/-- A source "a" with a value "b;c", exposed as "last": the separator occurs in a name. -/
def separatorConfiguration : config.ApiKitConfiguration :=
  { Sources := some [{ stockSource with Name := "a", Values := [{ priceValue with Name := "b;c" }] }]
    Endpoints := some [{ Name := "quote"
                         Values := [{ Name := "last", SourceName := "a", SourceValueName := "b;c" }] }] }

/-- Libraries that behave on the inputs of the scenario as the Go ones do: the expression
matches the number, the query selects the span, the number parses. -/
def scenarioLib : StdLib :=
  { intSize := 64
    urlParse := fun _ => none
    regexpCompile := fun _ => none
    FindStringSubmatch := fun re s =>
      if re = "([0-9.]+)" ∧ s = "$123.45" then ["123.45", "123.45"] else []
    ParseFloat := fun s =>
      if s = "123.45" then .ok scenarioPrice
      else .error ("strconv.ParseFloat: parsing \"" ++ s ++ "\": invalid syntax")
    Parse := fun s => .ok { inner := s, outer := s, attrs := [] }
    QueryAll := fun doc xpath =>
      if doc.outer = scenarioDocument ∧ xpath = "//span[@id='price']" then
        .ok [{ inner := " $123.45 ", outer := scenarioDocument, attrs := [("id", "price")] }]
      else .ok []
    gunzip := fun _ => .error "gzip: invalid header"
    inflate := fun _ => .error "flate: corrupt input" }

/-- A world whose network answers every request with the document of the scenario. -/
def scenarioWorld : World :=
  { clock := fun n => 1700000000000000000 + n
    ticks := 0
    transport := fun _ _ =>
      .ok { StatusCode := 200, Body := .ok scenarioDocument, ContentEncoding := "" }
    attempts := 0 }

/-- The source that `CreateSource` builds from the configuration of "stock". -/
def stockSourceInstance : source.source :=
  { htmlContentCache := utils.NewCacheable
    valueKeys := [("price", true)]
    valueRegex := [("([0-9.]+)", "([0-9.]+)")]
    cfg := stockSource }

/-- A world whose network refuses every request. -/
def failingWorld : World :=
  { clock := fun n => 1700000000000000000 + n
    ticks := 0
    transport := fun _ _ => .error "dial tcp: connection refused"
    attempts := 0 }

/-- A world thirty seconds after the scenario, one request made, the network now down. -/
def soonWorld : World :=
  { clock := fun n => 1700000030000000000 + n
    ticks := 1
    transport := fun _ _ => .error "dial tcp: connection refused"
    attempts := 1 }

/-- A world some three years after the scenario. -/
def laterWorld : World :=
  { scenarioWorld with clock := fun n => 1800000000000000000 + n }

/-- The source "stock" with the largest retry count a 64-bit `int` holds. -/
def maxRetriesSource : config.SourceConfiguration :=
  { stockSource with Retries := 9223372036854775807 }

/-- A document without any span. -/
def emptyDocument : content.htmlContent :=
  { document := { inner := "<p>none</p>", outer := "<p>none</p>", attrs := [] } }

/-- Two nodes selected by one query. -/
def twoSpans : List Node :=
  [{ inner := "1", outer := "<span>1</span>", attrs := [] },
   { inner := "2", outer := "<span>2</span>", attrs := [] }]

/-- A document with two spans. -/
def twoSpanDocument : content.htmlContent :=
  { document := { inner := "<span>1</span><span>2</span>"
                  outer := "<span>1</span><span>2</span>", attrs := [] } }

/-- Libraries whose query `//span` selects the two spans. -/
def twoSpanLib : StdLib :=
  { scenarioLib with
    QueryAll := fun _ xpath => if xpath = "//span" then .ok twoSpans else .ok [] }

/-- A source whose value "count" uses the strategy Single on `//span`. -/
def countSource : source.source :=
  { htmlContentCache := utils.NewCacheable
    valueKeys := [("count", true)]
    valueRegex := []
    cfg := { stockSource with
             Name := "counter"
             Values := [{ Name := "count", Xpath := "//span"
                          ExtractionStrategy := config.ExtractionStrategy.Single
                          ExtractionTrim := false, ExtractionRegex := ""
                          ExtractionRegexIndex := 0, Type_ := config.VariableType.Int }] } }

/-- The span of the scenario as an element. -/
def priceElement : content.htmlContentElement :=
  { node := { inner := " $123.45 ", outer := scenarioDocument, attrs := [("id", "price")] } }

/-- An element whose text and attribute `data-n` hold the integer just below the 32-bit
range. -/
def belowInt32Element : content.htmlContentElement :=
  { node := { inner := "-2147483649", outer := "<i data-n=\"-2147483649\">-2147483649</i>"
              attrs := [("data-n", "-2147483649")] } }

/-- The source "stock" with a caching lifetime of 9223372037 seconds, some 292 years. -/
def longLifetimeSource : config.SourceConfiguration :=
  { stockSource with CachingLifeTimeSeconds := 9223372037 }

/-- The configuration of the scenario with that lifetime. -/
def longLifetimeConfiguration : config.ApiKitConfiguration :=
  { Sources := some [longLifetimeSource], Endpoints := some [quoteEndpoint] }

/-- The source that `CreateSource` builds from it. -/
def longLifetimeInstance : source.source :=
  { stockSourceInstance with cfg := longLifetimeSource }

/-- The source "stock" after a first `GetValues` in the world of the scenario: the document
is in its cache. -/
def warmStockInstance : source.source :=
  (stockSourceInstance.GetValues scenarioLib scenarioWorld (some ["price"])).2.1

/-- The value "price" selected by an expression that hands a number to `contains`. -/
def containsValue : config.SourceValueConfiguration :=
  { priceValue with Xpath := "//span[contains(., 2)]" }

/-- The source "stock" with that value. -/
def containsSource : config.SourceConfiguration :=
  { stockSource with Values := [containsValue] }

/-- The configuration of the scenario with that source. -/
def containsConfiguration : config.ApiKitConfiguration :=
  { Sources := some [containsSource], Endpoints := some [quoteEndpoint] }

/-- The source that `CreateSource` builds from it. -/
def containsInstance : source.source :=
  { stockSourceInstance with cfg := containsSource }

/-- The libraries of the scenario, in which the evaluation of that expression panics, as it
does in `htmlquery`. -/
def containsLib : StdLib :=
  { scenarioLib with
    QueryAll := fun doc xpath =>
      if xpath = "//span[contains(., 2)]" then
        .error (.panic "contains() function argument type must be string")
      else scenarioLib.QueryAll doc xpath }

end ApiKit

/-! # Theorems -/

namespace ApiKit

/-! ## Facts about Go maps -/

namespace GoMap

variable {K V : Type} [DecidableEq K]

theorem lookup_store (m : GoMap K V) (k k' : K) (v : V) :
    (m.store k v).lookup k' = if k = k' then some v else m.lookup k' := by
  induction m with
  | nil => simp [store, lookup]
  | cons p rest ih =>
    obtain ⟨k0, v0⟩ := p
    by_cases h0 : k0 = k
    · subst h0
      by_cases h1 : k0 = k' <;> simp [store, lookup, h1]
    · by_cases h1 : k0 = k'
      · subst h1
        have : ¬ k = k0 := fun h => h0 h.symm
        simp [store, lookup, h0, this]
      · simp [store, lookup, h0, h1, ih]

theorem lookup_store_self (m : GoMap K V) (k : K) (v : V) :
    (m.store k v).lookup k = some v := by
  simp [lookup_store]

theorem lookup_eq_none_iff (m : GoMap K V) (k : K) :
    m.lookup k = none ↔ k ∉ m.keys := by
  induction m with
  | nil => simp [lookup, keys]
  | cons p rest ih =>
    obtain ⟨k0, v0⟩ := p
    by_cases h0 : k0 = k
    · simp [lookup, keys, h0]
    · have h1 : ¬ k = k0 := fun h => h0 h.symm
      simp only [keys] at ih
      simp [lookup, keys, h0, h1, ih]

theorem lookup_isSome_iff (m : GoMap K V) (k : K) :
    (∃ v, m.lookup k = some v) ↔ k ∈ m.keys := by
  rw [← not_iff_not, ← lookup_eq_none_iff]
  cases m.lookup k <;> simp

end GoMap

/-! ## The endpoint lookup -/

namespace client

theorem endpoints_lookup_eq_none (es : List config.EndpointConfiguration)
    (m : GoMap String (GoMap String (List String))) (r : GoMap String String) (name : String) :
    (createEndpointLookup.endpoints es m r).endpointSourcesWithSourceValuesLookup.lookup name = none
      ↔ m.lookup name = none ∧ ∀ e ∈ es, e.Name ≠ name := by
  induction es generalizing m r with
  | nil => simp [createEndpointLookup.endpoints]
  | cons e rest ih =>
    simp only [createEndpointLookup.endpoints, ih, GoMap.lookup_store]
    by_cases h : e.Name = name <;> simp [h]

/-- C7. For every configuration and every name, the lookup built by `createEndpointLookup`
exists, and `GetEndpointSourcesWithSourceValueNames` returns an error for the name exactly
when no endpoint of the configuration has that name. -/
theorem unknown_endpoint_error_iff (c : config.ApiKitConfiguration) (name : String) :
    ∃ l, createEndpointLookup c = .ok l ∧
      ((∃ f, l.GetEndpointSourcesWithSourceValueNames name = .error f) ↔
        ∀ e ∈ c.Endpoints.getD [], e.Name ≠ name) := by
  refine ⟨_, rfl, ?_⟩
  have h := endpoints_lookup_eq_none (c.Endpoints.getD []) [] [] name
  simp only [GoMap.lookup, true_and] at h
  rw [← h]
  unfold endpointLookup.GetEndpointSourcesWithSourceValueNames
  cases (createEndpointLookup.endpoints (c.Endpoints.getD []) [] []).endpointSourcesWithSourceValuesLookup.lookup name <;> simp

end client

/-! ## Key validation of a source -/

namespace utils

theorem IsDistinct_loop_eq_true_iff {T : Type} [DecidableEq T] (l : List T) (m : GoMap T Bool) :
    IsDistinct.loop m l = true ↔ l.Nodup ∧ ∀ x ∈ l, m.lookup x = none := by
  induction l generalizing m with
  | nil => simp [IsDistinct.loop]
  | cons a rest ih =>
    unfold IsDistinct.loop
    cases hm : m.lookup a with
    | some b =>
      simp [hm]
    | none =>
      simp only [ih, GoMap.lookup_store, List.nodup_cons, List.mem_cons, forall_eq_or_imp, hm,
        true_and]
      constructor
      · rintro ⟨hnd, hall⟩
        refine ⟨⟨?_, hnd⟩, ?_⟩
        · intro hmem
          have := hall a hmem
          simp at this
        · intro x hx
          have := hall x hx
          by_cases hax : a = x
          · simp [hax] at this
          · simpa [hax] using this
      · rintro ⟨⟨hnot, hnd⟩, hall⟩
        refine ⟨hnd, ?_⟩
        intro x hx
        have hax : ¬ a = x := fun h => hnot (h ▸ hx)
        simpa [hax] using hall x hx

theorem IsDistinct_some {T : Type} [DecidableEq T] (l : List T) :
    IsDistinct (some l) = .ok (decide l.Nodup) := by
  unfold IsDistinct
  have h := IsDistinct_loop_eq_true_iff l ([] : GoMap T Bool)
  simp only [GoMap.lookup, implies_true, and_true] at h
  by_cases hn : l.Nodup
  · simp [hn, h.mpr hn]
  · have : IsDistinct.loop ([] : GoMap T Bool) l = false := by
      cases hl : IsDistinct.loop ([] : GoMap T Bool) l
      · rfl
      · exact absurd (h.mp hl) hn
    simp [hn, this]

end utils

namespace source

theorem valueKeys_lookup_eq_none (vs : List config.SourceValueConfiguration)
    (m : GoMap String Bool) (k : String) :
    (CreateSource.valueKeys vs m).lookup k = none ↔
      m.lookup k = none ∧ k ∉ vs.map (fun v => v.Name) := by
  induction vs generalizing m with
  | nil => simp [CreateSource.valueKeys]
  | cons v rest ih =>
    simp only [CreateSource.valueKeys, ih, GoMap.lookup_store, List.map_cons, List.mem_cons,
      not_or]
    by_cases h : v.Name = k
    · simp [h]
    · have h' : ¬ k = v.Name := fun e => h e.symm
      simp [h, h']

theorem AreValueKeysValid_loop_eq_true_iff (valueKeys : GoMap String Bool) (l : List String) :
    AreValueKeysValid.loop valueKeys l = true ↔ ∀ k ∈ l, valueKeys.lookup k ≠ none := by
  induction l with
  | nil => simp [AreValueKeysValid.loop]
  | cons a rest ih =>
    unfold AreValueKeysValid.loop
    cases h : valueKeys.lookup a with
    | none => simp [h]
    | some b => simp [h, ih]

theorem CreateSource_ok {lib : StdLib} {c : config.SourceConfiguration} {s : source}
    (hs : CreateSource lib c = .ok s) :
    s.valueKeys = CreateSource.valueKeys c.Values [] ∧ s.cfg = c ∧
      CreateSource.valueRegex lib c.Values [] = .ok s.valueRegex ∧
      s.htmlContentCache.isSet = false := by
  unfold CreateSource at hs
  cases hr : CreateSource.valueRegex lib c.Values [] with
  | error f => simp [hr] at hs
  | ok r =>
    simp only [hr, Except.ok.injEq] at hs
    subst hs
    exact ⟨rfl, rfl, rfl, rfl⟩

theorem AreValueKeysValid_some {c : config.SourceConfiguration} {s : source}
    (hk : s.valueKeys = CreateSource.valueKeys c.Values []) (keys : List String) :
    s.AreValueKeysValid (some keys) =
      .ok (decide (keys.Nodup ∧ ∀ k ∈ keys, k ∈ c.Values.map (fun v => v.Name))) := by
  unfold source.AreValueKeysValid
  rw [utils.IsDistinct_some]
  have hloop := AreValueKeysValid_loop_eq_true_iff s.valueKeys keys
  have hdecl : (∀ k ∈ keys, s.valueKeys.lookup k ≠ none) ↔
      ∀ k ∈ keys, k ∈ c.Values.map (fun v => v.Name) := by
    constructor
    · intro h k hkm
      have := h k hkm
      rw [hk, Ne, valueKeys_lookup_eq_none] at this
      simpa [GoMap.lookup] using this
    · intro h k hkm
      rw [hk, Ne, valueKeys_lookup_eq_none]
      simpa [GoMap.lookup] using h k hkm
  by_cases hn : keys.Nodup
  · simp only [decide_eq_true hn, Option.getD_some]
    congr 1
    rw [Bool.eq_iff_iff]
    simp only [decide_eq_true_eq]
    rw [hloop, hdecl]
    exact ⟨fun h => ⟨hn, h⟩, fun h => h.2⟩
  · simp only [decide_eq_false hn]
    congr 1
    symm
    rw [decide_eq_false_iff_not]
    exact fun h => hn h.1

/-- C10. For every source whose key table is the one `CreateSource` builds from its
configuration, whatever its document cache holds, and every non-nil list of requested names,
`AreValueKeysValid` returns true exactly when the names are pairwise distinct and all declared
among the values of the source; when the list holds a name twice or an undeclared name,
`GetValues` returns no mapping but an error. -/
theorem invalid_keys_rejected (lib : StdLib) (c : config.SourceConfiguration) (s : source)
    (hkeys : s.valueKeys = CreateSource.valueKeys c.Values []) (w : World)
    (keys : List String) :
    (∃ b, s.AreValueKeysValid (some keys) = .ok b ∧
      (b = true ↔ keys.Nodup ∧ ∀ k ∈ keys, k ∈ c.Values.map (fun v => v.Name))) ∧
    ((¬ keys.Nodup ∨ ∃ k ∈ keys, k ∉ c.Values.map (fun v => v.Name)) →
      ∃ msg, (s.GetValues lib w (some keys)).1 = .error (.error msg)) := by
  have hvalid := AreValueKeysValid_some hkeys keys
  refine ⟨⟨_, hvalid, by simp⟩, ?_⟩
  intro hbad
  have hfalse : decide (keys.Nodup ∧ ∀ k ∈ keys, k ∈ c.Values.map (fun v => v.Name)) = false := by
    rw [decide_eq_false_iff_not]
    rintro ⟨hn, hd⟩
    rcases hbad with hbad | ⟨k, hk, hnot⟩
    · exact hbad hn
    · exact hnot (hd k hk)
  rw [hfalse] at hvalid
  refine ⟨"source: failed to access the source values: source: invalid values keys provided", ?_⟩
  simp only [source.GetValues, source.GetValuesNoLock, hvalid, wrapError]
  rfl

end source

/-! ## Failure of a request -/

namespace client

end client

/-! ## The end-to-end scenario -/

namespace source

theorem GetSourceValue_price (lib : StdLib) (s : source) (root node : Node) (rest : List Node)
    (hvalues : s.cfg.Values = [priceValue])
    (hregex : s.valueRegex.lookup "([0-9.]+)" = some "([0-9.]+)")
    (hquery : lib.QueryAll root "//span[@id='price']" = .ok (node :: rest))
    (hinner : node.inner = " $123.45 ")
    (hfind : lib.FindStringSubmatch "([0-9.]+)" "$123.45" = ["123.45", "123.45"])
    (hfloat : lib.ParseFloat "123.45" = .ok scenarioPrice) :
    s.GetSourceValue lib "price" { document := root } = .ok (.float scenarioPrice) := by
  have htrim : TrimSpace " $123.45 " = "$123.45" := by decide
  have hfindk : GetSourceValue.find "price" [priceValue] none = some priceValue := by decide
  unfold source.GetSourceValue
  rw [hvalues, hfindk]
  simp only [priceValue, config.ExtractionStrategy.First, config.VariableType.Float,
    content.htmlContent.GetFirstElement, content.Query, hquery, List.head?_cons,
    content.createHtmlContentElement, if_true,
    content.htmlContentElement.GetInnerTextFloat, content.htmlContentElement.GetInnerText,
    GetSourceValue.sourceValuePreprocess, hregex, hinner, htrim, hfind]
  simp [hfloat]

theorem GetValues_price (lib : StdLib) (w : World) (stock : config.SourceConfiguration) (s : source)
    (root node : Node) (rest : List Node)
    (hs : CreateSource lib stock = .ok s)
    (hvalues : stock.Values = [priceValue])
    (hregex : lib.regexpCompile "([0-9.]+)" = none)
    (hfetch : (GetHtmlViaHttp lib stock w).1 = .ok scenarioDocument)
    (hparse : lib.Parse scenarioDocument = .ok root)
    (hquery : lib.QueryAll root "//span[@id='price']" = .ok (node :: rest))
    (hinner : node.inner = " $123.45 ")
    (hfind : lib.FindStringSubmatch "([0-9.]+)" "$123.45" = ["123.45", "123.45"])
    (hfloat : lib.ParseFloat "123.45" = .ok scenarioPrice) :
    (s.GetValues lib w (some ["price"])).1 = .ok [("price", .float scenarioPrice)] := by
  obtain ⟨hkeys, hcfg, hre, hset⟩ := CreateSource_ok hs
  have hvalid := AreValueKeysValid_some (CreateSource_ok hs).1 ["price"]
  rw [hvalues] at hvalid hkeys hre
  have hd : decide ((["price"] : List String).Nodup ∧
      ∀ k ∈ (["price"] : List String), k ∈ [priceValue].map (fun v => v.Name)) = true := by
    decide
  rw [hd] at hvalid
  have hre' : s.valueRegex = [("([0-9.]+)", "([0-9.]+)")] := by
    have hlen : ¬ priceValue.ExtractionRegex.length = 0 := by decide
    simp only [CreateSource.valueRegex, hlen, if_false] at hre
    have hp : priceValue.ExtractionRegex = "([0-9.]+)" := rfl
    simp only [hp, hregex, GoMap.store, Except.ok.injEq] at hre
    exact hre.symm
  have hlook : s.valueRegex.lookup "([0-9.]+)" = some "([0-9.]+)" := by
    rw [hre']; decide
  have hcache : s.htmlContentCache.Get w = ((default, false), w) := by
    simp [utils.cacheable.Get, hset]
  have hdoc : ¬ scenarioDocument.length = 0 := by decide
  have hcontent : ∀ t : source, t.cfg = stock → t.valueRegex = s.valueRegex →
      GetValuesNoLock.loop lib t { document := root } ["price"] [] =
        .ok [("price", .float scenarioPrice)] := by
    intro t ht hr
    have := GetSourceValue_price lib t root node rest (by rw [ht, hvalues])
      (by rw [hr]; exact hlook) hquery hinner hfind hfloat
    simp [GetValuesNoLock.loop, this, GoMap.store]
  cases hg : GetHtmlViaHttp lib stock w with
  | mk fetched w2 =>
    rw [hg] at hfetch
    simp only at hfetch
    subst hfetch
    simp only [source.GetValues, source.GetValuesNoLock, hvalid, source.GetHtmlContent, hcache,
      hcfg, hg, content.CreateHtmlContent, hdoc, if_false, hparse]
    by_cases hc : stock.CachingEnable = true
    · simp only [hc, if_true, Option.getD_some]
      rw [hcontent] <;> rfl
    · simp only [hc, Bool.false_eq_true, if_false, Option.getD_some]
      rw [hcontent] <;> first | rfl | exact hcfg

end source

namespace client

theorem Get_single (o : MapOrder) (ho : o.Admissible) (c : apiKitClient) (name s : String)
    (names : List String) (src : source.Source) (k n : String) (v : Value)
    (hm : c.lookup.GetEndpointSourcesWithSourceValueNames name = .ok [(s, names)])
    (hsrc : c.sources.lookup s = some src)
    (hv : src.GetValues (some names) = .ok [(k, v)])
    (hn : c.lookup.GetEndpointValueName s k = .ok n) :
    c.Get o name = .ok [(n, v)] := by
  have h1 : o.sources [(s, names)] = [(s, names)] := List.perm_singleton.mp (ho.1 _)
  have h2 : o.values s [(k, v)] = [(k, v)] := List.perm_singleton.mp (ho.2 _ _)
  simp [apiKitClient.Get, hm, h1, Get.visit, hsrc, hv, h2, Get.rename, hn, GoMap.store]

/-- C9. With source "stock" declaring value "price" (XPath `//span[@id='price']`, strategy
First, type Float, regex `([0-9.]+)` with group index 1, trim on) and endpoint "quote"
exposing stock/price as "last", when the fetched document is
`<span id="price"> $123.45 </span>`, the client is created and `Get("quote")` returns exactly
the one-entry mapping from "last" to the float 123.45; the libraries are taken to parse the
document, select the span, match the expression and parse the number as they do in Go. -/
theorem quote_scenario (lib : StdLib) (w : World) (o : MapOrder) (stock : config.SourceConfiguration)
    (root node : Node) (rest : List Node)
    (ho : o.Admissible)
    (hname : stock.Name = "stock")
    (hvalues : stock.Values = [priceValue])
    (hregex : lib.regexpCompile "([0-9.]+)" = none)
    (hfetch : (source.GetHtmlViaHttp lib stock w).1 = .ok scenarioDocument)
    (hparse : lib.Parse scenarioDocument = .ok root)
    (hquery : lib.QueryAll root "//span[@id='price']" = .ok (node :: rest))
    (hinner : node.inner = " $123.45 ")
    (hfind : lib.FindStringSubmatch "([0-9.]+)" "$123.45" = ["123.45", "123.45"])
    (hfloat : lib.ParseFloat "123.45" = .ok scenarioPrice) :
    ∃ c, CreateNamedApiKitClient lib w
        { Sources := some [stock], Endpoints := some [quoteEndpoint] } = .ok c ∧
      c.Get o "quote" = .ok [("last", .float scenarioPrice)] := by
  have hcreate : ∃ s, source.CreateSource lib stock = .ok s := by
    have hlen : ¬ priceValue.ExtractionRegex.length = 0 := by decide
    have hp : lib.regexpCompile priceValue.ExtractionRegex = none := hregex
    simp [source.CreateSource, hvalues, source.CreateSource.valueRegex, hlen, hp]
  obtain ⟨s, hs⟩ := hcreate
  refine ⟨{ sources := [("stock", s.toSource lib w)],
            lookup := { endpointSourcesWithSourceValuesLookup := [("quote", [("stock", ["price"])])]
                        sourceValueNameToEndpointValueNameLookup := [("stock;price", "last")] } },
    ?_, ?_⟩
  · simp only [CreateNamedApiKitClient, Option.getD_some, CreateNamedApiKitClient.sources, hs,
      hname, GoMap.store]
    rfl
  · apply Get_single o ho _ "quote" "stock" ["price"] (s.toSource lib w) "price" "last"
    · rfl
    · rfl
    · exact source.GetValues_price lib w stock s root node rest hs hvalues hregex hfetch hparse
        hquery hinner hfind hfloat
    · rfl

end client

/-! ## Accepted configurations -/

theorem GoMap_store_ne_nil {K V : Type} [DecidableEq K] (m : GoMap K V) (k : K) (v : V) :
    m.store k v ≠ [] := by
  cases m with
  | nil => simp [GoMap.store]
  | cons p rest =>
    obtain ⟨k0, v0⟩ := p
    by_cases h : k0 = k <;> simp [GoMap.store, h]

namespace config

theorem isValid_sourceValues_ok (lib : StdLib) (vs : List SourceValueConfiguration)
    (set0 set1 : utils.set String) (h : isValid.sourceValues lib set0 vs = .ok set1) :
    ∀ v ∈ vs, lib.regexpCompile v.ExtractionRegex = none := by
  induction vs generalizing set0 with
  | nil => simp
  | cons v rest ih =>
    unfold isValid.sourceValues at h
    split at h
    · simp at h
    · rename_i hv
      split at h
      · simp at h
      · intro x hx
        rcases List.mem_cons.mp hx with rfl | hx
        · unfold SourceValueConfiguration.isValid at hv
          cases hc : lib.regexpCompile x.ExtractionRegex with
          | none => rfl
          | some e =>
            exfalso
            apply hv
            split_ifs <;> simp_all
        · exact ih _ h x hx

theorem isValid_sources_ok (lib : StdLib) (ss : List SourceConfiguration)
    (m0 m1 : GoMap String (utils.set String)) (h : isValid.sources lib m0 ss = .ok m1) :
    ∀ s ∈ ss, ∀ v ∈ s.Values, lib.regexpCompile v.ExtractionRegex = none := by
  induction ss generalizing m0 with
  | nil => simp
  | cons s rest ih =>
    unfold isValid.sources at h
    split at h
    · simp at h
    · cases hv : isValid.sourceValues lib utils.NewEmptySet s.Values with
      | error msg => simp [hv] at h
      | ok sv =>
        simp only [hv] at h
        cases hl : m0.lookup s.Name with
        | some x => simp [hl] at h
        | none =>
          simp only [hl] at h
          intro x hx
          rcases List.mem_cons.mp hx with rfl | hx
          · exact isValid_sourceValues_ok lib _ _ _ hv
          · exact ih _ h x hx

theorem Validate_accepts (lib : StdLib) (c : ApiKitConfiguration)
    (h : (Validate lib c).1 = true) :
    ∃ ss es m, c.Sources = some ss ∧ c.Endpoints = some es ∧
      isValid.sources lib [] ss = .ok m ∧ isValid.endpoints m [] es = .ok () := by
  unfold Validate ApiKitConfiguration.isValid at h
  cases hs : c.Sources with
  | none => simp [hs] at h
  | some ss =>
    cases he : c.Endpoints with
    | none => simp [hs, he] at h
    | some es =>
      simp only [hs, he] at h
      cases h1 : isValid.sources lib [] ss with
      | error msg => simp [h1] at h
      | ok m =>
        simp only [h1] at h
        cases h2 : isValid.endpoints m [] es with
        | error msg => simp [h2] at h
        | ok u => exact ⟨ss, es, m, rfl, rfl, h1, h2⟩

end config

namespace source

theorem valueRegex_ok (lib : StdLib) (vs : List config.SourceValueConfiguration)
    (m : GoMap String String) (h : ∀ v ∈ vs, lib.regexpCompile v.ExtractionRegex = none) :
    ∃ r, CreateSource.valueRegex lib vs m = .ok r := by
  induction vs generalizing m with
  | nil => exact ⟨m, rfl⟩
  | cons v rest ih =>
    unfold CreateSource.valueRegex
    have hv := h v (List.mem_cons_self _ _)
    have hrest : ∀ x ∈ rest, lib.regexpCompile x.ExtractionRegex = none :=
      fun x hx => h x (List.mem_cons_of_mem _ hx)
    split
    · exact ih _ hrest
    · simp only [hv]
      exact ih _ hrest

theorem CreateSource_succeeds (lib : StdLib) (c : config.SourceConfiguration)
    (h : ∀ v ∈ c.Values, lib.regexpCompile v.ExtractionRegex = none) :
    ∃ s, CreateSource lib c = .ok s := by
  obtain ⟨r, hr⟩ := valueRegex_ok lib c.Values [] h
  refine ⟨{ htmlContentCache := utils.NewCacheable, valueKeys := CreateSource.valueKeys c.Values []
            valueRegex := r, cfg := c }, ?_⟩
  simp only [CreateSource, hr]

end source

namespace client

theorem client_sources_ok (lib : StdLib) (w : World)
    (ss : List config.SourceConfiguration) (m : GoMap String source.Source)
    (h : ∀ s ∈ ss, ∀ v ∈ s.Values, lib.regexpCompile v.ExtractionRegex = none) :
    ∃ m', CreateNamedApiKitClient.sources lib w ss m = .ok m' ∧
      ∀ k, (m.lookup k ≠ none ∨ k ∈ ss.map (fun s => s.Name)) → m'.lookup k ≠ none := by
  induction ss generalizing m with
  | nil => exact ⟨m, rfl, by simp⟩
  | cons s rest ih =>
    obtain ⟨created, hc⟩ := source.CreateSource_succeeds lib s (h s (List.mem_cons_self _ _))
    obtain ⟨m', hm', hk⟩ := ih (m.store s.Name (created.toSource lib w))
      (fun x hx => h x (List.mem_cons_of_mem _ hx))
    refine ⟨m', by simp only [CreateNamedApiKitClient.sources, hc, hm'], ?_⟩
    intro k hkm
    apply hk
    rw [GoMap.lookup_store]
    by_cases hsk : s.Name = k
    · simp [hsk]
    · simp only [hsk, if_false]
      rcases hkm with hkm | hkm
      · exact Or.inl hkm
      · simp only [List.map_cons, List.mem_cons] at hkm
        rcases hkm with hkm | hkm
        · exact absurd hkm.symm hsk
        · exact Or.inr hkm

theorem lookup_values_ne_nil (vs : List config.EndpointValueConfiguration)
    (m : GoMap String (List String)) (r : GoMap String String) (h : vs ≠ [] ∨ m ≠ []) :
    (createEndpointLookup.values vs m r).1 ≠ [] := by
  induction vs generalizing m r with
  | nil =>
    rcases h with h | h
    · exact absurd rfl h
    · simpa [createEndpointLookup.values] using h
  | cons v rest ih =>
    unfold createEndpointLookup.values
    apply ih
    right
    cases m.lookup v.SourceName <;> exact GoMap_store_ne_nil _ _ _

theorem GoMap_mem_keys_store {K V : Type} [DecidableEq K] (m : GoMap K V) (k k' : K) (v : V)
    (h : k' ∈ (m.store k v).keys) : k' = k ∨ k' ∈ m.keys := by
  induction m with
  | nil =>
    simp only [GoMap.store, GoMap.keys, List.map_cons, List.map_nil, List.mem_singleton] at h
    exact Or.inl h
  | cons e rest ih =>
    obtain ⟨k0, v0⟩ := e
    by_cases h0 : k0 = k
    · simp only [GoMap.store, h0, if_true, GoMap.keys, List.map_cons, List.mem_cons] at h
      rcases h with h | h
      · exact Or.inl h
      · right
        simp only [GoMap.keys, List.map_cons, List.mem_cons]
        exact Or.inr h
    · simp only [GoMap.store, h0, if_false, GoMap.keys, List.map_cons, List.mem_cons] at h
      rcases h with h | h
      · right
        simp only [GoMap.keys, List.map_cons, List.mem_cons]
        exact Or.inl h
      · rcases ih h with h1 | h1
        · exact Or.inl h1
        · right
          simp only [GoMap.keys, List.map_cons, List.mem_cons]
          exact Or.inr h1

theorem lookup_values_keys (vs : List config.EndpointValueConfiguration)
    (m : GoMap String (List String)) (r : GoMap String String) (s : String)
    (h : s ∈ (createEndpointLookup.values vs m r).1.keys) :
    s ∈ m.keys ∨ ∃ v ∈ vs, v.SourceName = s := by
  induction vs generalizing m r with
  | nil => exact Or.inl h
  | cons v rest ih =>
    unfold createEndpointLookup.values at h
    rcases ih _ _ h with h1 | ⟨v', hv', hs⟩
    · have hstore : s = v.SourceName ∨ s ∈ m.keys := by
        cases hl : m.lookup v.SourceName with
        | none =>
          rw [hl] at h1
          exact GoMap_mem_keys_store _ _ _ _ h1
        | some names =>
          rw [hl] at h1
          exact GoMap_mem_keys_store _ _ _ _ h1
      rcases hstore with h2 | h2
      · exact Or.inr ⟨v, List.mem_cons_self _ _, h2.symm⟩
      · exact Or.inl h2
    · exact Or.inr ⟨v', List.mem_cons_of_mem _ hv', hs⟩

theorem endpoints_lookup_eq_some (es : List config.EndpointConfiguration)
    (m : GoMap String (GoMap String (List String))) (r : GoMap String String) (name : String)
    (x : GoMap String (List String))
    (h : (createEndpointLookup.endpoints es m r).endpointSourcesWithSourceValuesLookup.lookup name
      = some x) :
    m.lookup name = some x ∨
      ∃ e ∈ es, e.Name = name ∧ ∃ r', x = (createEndpointLookup.values e.Values [] r').1 := by
  induction es generalizing m r with
  | nil => exact Or.inl h
  | cons e rest ih =>
    unfold createEndpointLookup.endpoints at h
    rcases ih _ _ h with h1 | ⟨e', he', hn, r', hx⟩
    · rw [GoMap.lookup_store] at h1
      by_cases hen : e.Name = name
      · simp only [hen, if_true, Option.some.injEq] at h1
        exact Or.inr ⟨e, List.mem_cons_self _ _, hen, _, h1.symm⟩
      · simp only [hen, if_false] at h1
        exact Or.inl h1
    · exact Or.inr ⟨e', List.mem_cons_of_mem _ he', hn, r', hx⟩

/-- C4, as amended. For every configuration accepted by `Validate` and every endpoint name
present in it, the client is created and `GetEndpointSourcesWithSourceValueNames` returns a
mapping without error; the mapping is non-empty when every endpoint declared under that name
has at least one value; every key of the mapping is the source name of a value of an endpoint
of that name; every key that names a declared source has a `Source` instance in the source
table of the client; so every key of the mapping has an instance when the values of the
endpoints of that name all name declared sources. -/
theorem lookup_total_on_declared_endpoints (lib : StdLib) (w : World)
    (c : config.ApiKitConfiguration) (name : String)
    (hvalid : (config.Validate lib c).1 = true)
    (hname : ∃ e ∈ c.Endpoints.getD [], e.Name = name) :
    ∃ cl m, CreateNamedApiKitClient lib w c = .ok cl ∧
      cl.lookup.GetEndpointSourcesWithSourceValueNames name = .ok m ∧
      ((∀ e ∈ c.Endpoints.getD [], e.Name = name → e.Values ≠ []) → m ≠ []) ∧
      (∀ s ∈ m.keys, ∃ e ∈ c.Endpoints.getD [], e.Name = name ∧
        ∃ v ∈ e.Values, v.SourceName = s) ∧
      (∀ s ∈ m.keys, s ∈ (c.Sources.getD []).map (fun x => x.Name) →
        ∃ src, cl.sources.lookup s = some src) ∧
      ((∀ e ∈ c.Endpoints.getD [], e.Name = name →
          ∀ v ∈ e.Values, v.SourceName ∈ (c.Sources.getD []).map (fun x => x.Name)) →
        ∀ s ∈ m.keys, ∃ src, cl.sources.lookup s = some src) := by
  obtain ⟨ss, es, sv, hss, hes, hsrc, -⟩ := config.Validate_accepts lib c hvalid
  obtain ⟨tbl, htbl, hfind⟩ := client_sources_ok lib w ss []
    (config.isValid_sources_ok lib ss [] sv hsrc)
  have hne : (createEndpointLookup.endpoints es [] []).endpointSourcesWithSourceValuesLookup.lookup
      name ≠ none := by
    rw [Ne, endpoints_lookup_eq_none]
    simp only [hes, Option.getD_some] at hname
    obtain ⟨e, he, hn⟩ := hname
    exact fun h => h.2 e he hn
  cases hm : (createEndpointLookup.endpoints es [] []).endpointSourcesWithSourceValuesLookup.lookup
      name with
  | none => exact absurd hm hne
  | some m =>
    have hdeclared : ∀ s, s ∈ (c.Sources.getD []).map (fun x => x.Name) →
        ∃ src, tbl.lookup s = some src := by
      intro s hs
      simp only [hss, Option.getD_some] at hs
      have := hfind s (Or.inr hs)
      cases hl : tbl.lookup s with
      | none => exact absurd hl this
      | some src => exact ⟨src, rfl⟩
    have hkeys : ∀ s ∈ m.keys, ∃ e ∈ c.Endpoints.getD [], e.Name = name ∧
        ∃ v ∈ e.Values, v.SourceName = s := by
      intro s hs
      rcases endpoints_lookup_eq_some es [] [] name m hm with h0 | ⟨e, he, hn, r', hx⟩
      · simp [GoMap.lookup] at h0
      · rw [hx] at hs
        rcases lookup_values_keys e.Values [] r' s hs with h1 | h1
        · simp [GoMap.keys] at h1
        · exact ⟨e, by simpa [hes] using he, hn, h1⟩
    refine ⟨{ sources := tbl, lookup := createEndpointLookup.endpoints es [] [] }, m,
      ?_, ?_, ?_, hkeys, fun s _ hs => hdeclared s hs, ?_⟩
    · simp only [CreateNamedApiKitClient, hss, hes, Option.getD_some, htbl, createEndpointLookup]
    · simp only [endpointLookup.GetEndpointSourcesWithSourceValueNames, hm]
    · intro hall
      rcases endpoints_lookup_eq_some es [] [] name m hm with h0 | ⟨e, he, hn, r', hx⟩
      · simp [GoMap.lookup] at h0
      · rw [hx]
        apply lookup_values_ne_nil
        left
        exact hall e (by simpa [hes] using he) hn
    · intro hrefs s hs
      obtain ⟨e, he, hn, v, hv, hvs⟩ := hkeys s hs
      exact hdeclared s (hvs ▸ hrefs e he hn v hv)

end client

/-! ## The claims at concrete inputs -/

namespace client

/-- C1. On a configuration that `Validate` accepts, in which the endpoints "quote" and "ticker"
expose stock/price as "last" and as "px", `Get("quote")` succeeds and returns the one-entry
mapping keyed "px", a name the endpoint "quote" does not declare, instead of "last". -/
theorem get_quote_returns_name_of_ticker :
    config.Validate scenarioLib sharedValueConfiguration = (true, "") ∧
    ∃ c, CreateNamedApiKitClient scenarioLib scenarioWorld sharedValueConfiguration = .ok c ∧
      c.Get MapOrder.insertion "quote" = .ok [("px", .float scenarioPrice)] :=
  ⟨by decide, _, rfl, by decide⟩

/-- C2. `Validate` accepts a configuration in which a value of the endpoint "summary" names
"quote" as its source, although no source of that name is declared: the set of the first
endpoint was stored among the sets of the sources. -/
theorem validate_accepts_dangling_reference :
    config.Validate scenarioLib danglingConfiguration = (true, "") ∧
    ∃ e ∈ danglingConfiguration.Endpoints.getD [], ∃ v ∈ e.Values,
      v.SourceName ∉ (danglingConfiguration.Sources.getD []).map (fun s => s.Name) := by
  decide

/-- C3. `Validate` accepts a configuration with two endpoints named "quote": the map that the
duplicate check reads is never written. -/
theorem validate_accepts_duplicate_endpoint_names :
    config.Validate scenarioLib duplicateEndpointConfiguration = (true, "") ∧
    ¬ ((duplicateEndpointConfiguration.Endpoints.getD []).map (fun e => e.Name)).Nodup := by
  decide

/-- C4, as stated, fails. `Validate` accepts a configuration whose endpoint "quote" declares
no value, and the mapping returned for "quote" is empty.  `Validate` also accepts a
configuration whose endpoint "summary" names the undeclared source "quote": the client is
created, the mapping returned for "summary" has the key "quote", and the source table of the
client holds no instance for it. -/
theorem lookup_mapping_empty_or_key_without_instance :
    (config.Validate scenarioLib emptyEndpointConfiguration = (true, "") ∧
      (∃ e ∈ emptyEndpointConfiguration.Endpoints.getD [], e.Name = "quote") ∧
      ∃ l, createEndpointLookup emptyEndpointConfiguration = .ok l ∧
        l.GetEndpointSourcesWithSourceValueNames "quote" = .ok []) ∧
    (config.Validate scenarioLib danglingConfiguration = (true, "") ∧
      (∃ e ∈ danglingConfiguration.Endpoints.getD [], e.Name = "summary") ∧
      ∃ cl, CreateNamedApiKitClient scenarioLib scenarioWorld danglingConfiguration = .ok cl ∧
        cl.lookup.GetEndpointSourcesWithSourceValueNames "summary" = .ok [("quote", ["last"])] ∧
        (cl.sources.lookup "quote").isNone = true) :=
  ⟨⟨by decide, by decide, _, rfl, by decide⟩, by decide, by decide, _, rfl, by decide, rfl⟩

/-- C5. On a configuration that `Validate` accepts, the entry of endpoint "quote" with exposed
name "last", source "stock" and value "price" is answered by `GetEndpointValueName` with "px",
the name under which the later endpoint "ticker" exposes the same pair. -/
theorem rename_answers_name_of_later_endpoint :
    config.Validate scenarioLib sharedValueConfiguration = (true, "") ∧
    (∃ e ∈ sharedValueConfiguration.Endpoints.getD [],
      { Name := "last", SourceName := "stock", SourceValueName := "price" } ∈ e.Values) ∧
    ∃ l, createEndpointLookup sharedValueConfiguration = .ok l ∧
      l.GetEndpointValueName "stock" "price" = .ok "px" :=
  ⟨by decide, by decide, _, rfl, by decide⟩

/-- C6. On a configuration that `Validate` accepts, whose only entry has source "a" and value
"b;c", the pair of source "a;b" and value "c", which no entry registers, is answered by
`GetEndpointValueName` with "last" and no error: both pairs join to the key "a;b;c". -/
theorem rename_found_for_unregistered_pair :
    config.Validate scenarioLib separatorConfiguration = (true, "") ∧
    (∀ e ∈ separatorConfiguration.Endpoints.getD [], ∀ v ∈ e.Values,
      ¬ (v.SourceName = "a;b" ∧ v.SourceValueName = "c")) ∧
    ∃ l, createEndpointLookup separatorConfiguration = .ok l ∧
      l.GetEndpointValueName "a;b" "c" = .ok "last" :=
  ⟨by decide, by decide, _, rfl, by decide⟩

/-- Witness of C4 as amended, on the configuration of the scenario and its endpoint "quote",
whose values all name the declared source "stock": every key of the mapping has an instance. -/
theorem lookup_total_on_declared_endpoints_witness :
    (config.Validate scenarioLib quoteConfiguration).1 = true ∧
    (∃ e ∈ quoteConfiguration.Endpoints.getD [], e.Name = "quote") ∧
    ∃ cl m, CreateNamedApiKitClient scenarioLib scenarioWorld quoteConfiguration = .ok cl ∧
      cl.lookup.GetEndpointSourcesWithSourceValueNames "quote" = .ok m ∧
      m ≠ [] ∧
      ∀ s ∈ m.keys, ∃ src, cl.sources.lookup s = some src := by
  obtain ⟨cl, m, hcl, hm, hne, -, -, hall⟩ :=
    lookup_total_on_declared_endpoints scenarioLib scenarioWorld quoteConfiguration "quote"
      (by decide) (by decide)
  exact ⟨by decide, by decide, cl, m, hcl, hm, hne (by decide), hall (by decide)⟩

/-- Witness of C9: the scenario with libraries and a network that behave as described. -/
theorem quote_scenario_witness :
    ∃ c, CreateNamedApiKitClient scenarioLib scenarioWorld quoteConfiguration = .ok c ∧
      c.Get MapOrder.insertion "quote" = .ok [("last", .float scenarioPrice)] :=
  quote_scenario scenarioLib scenarioWorld MapOrder.insertion stockSource
    { inner := scenarioDocument, outer := scenarioDocument, attrs := [] }
    { inner := " $123.45 ", outer := scenarioDocument, attrs := [("id", "price")] } []
    ⟨fun _ => List.Perm.refl _, fun _ _ => List.Perm.refl _⟩
    rfl rfl rfl rfl rfl rfl rfl rfl rfl

end client

namespace source

/-- Witness of C10: the source "stock", with the document of the scenario in its cache, is
asked for "price" twice. -/
theorem invalid_keys_rejected_witness :
    warmStockInstance.valueKeys = CreateSource.valueKeys stockSource.Values [] ∧
    warmStockInstance.htmlContentCache.isSet = true ∧
    ¬ (["price", "price"] : List String).Nodup ∧
    ∃ msg, (warmStockInstance.GetValues scenarioLib soonWorld (some ["price", "price"])).1 =
      .error (.error msg) :=
  ⟨by decide, by decide, by decide,
    (invalid_keys_rejected scenarioLib stockSource warmStockInstance (by decide) soonWorld
      ["price", "price"]).2 (Or.inl (by decide))⟩

end source

/-! ## Sources, documents and the cache -/

theorem wrapError_no_panic {α : Type} (pre : String) (r : Except Failure α)
    (h : ∀ p, r ≠ .error (.panic p)) : ∀ p, wrapError pre r ≠ .error (.panic p) := by
  intro p
  match r, h with
  | .ok a, _ => simp [wrapError]
  | .error (.error msg), _ => simp [wrapError]
  | .error (.panic q), h => exact absurd rfl (h q)

namespace utils

theorem cacheable_Get_true {T : Type} [Inhabited T] (c : cacheable T) (w w1 : World) (x : T)
    (h : c.Get w = ((x, true), w1)) : c.isSet = true ∧ c.value = x := by
  unfold cacheable.Get at h
  split_ifs at h <;> simp_all

theorem cacheable_Get_attempts {T : Type} [Inhabited T] (c : cacheable T) (w : World) :
    (c.Get w).2.attempts = w.attempts ∧ (c.Get w).2.transport = w.transport := by
  unfold cacheable.Get
  split_ifs <;> exact ⟨rfl, rfl⟩

theorem cacheable_Get_fresh {T : Type} [Inhabited T] (c : cacheable T) (w : World)
    (hset : c.isSet = true) (hfresh : UnixMilli (w.clock w.ticks) < c.ttlEnd) :
    (c.Get w).1 = (c.value, true) := by
  unfold cacheable.Get
  have h : ¬ c.ttlEnd ≤ UnixMilli (w.now.1) := not_le.mpr hfresh
  split_ifs <;> simp_all

end utils

namespace source

theorem GetDecodedHttpBody_no_panic (lib : StdLib) (body enc : String) (p : String) :
    GetDecodedHttpBody lib body enc ≠ .error (.panic p) := by
  unfold GetDecodedHttpBody
  split_ifs
  · simp
  · split <;> simp
  · split <;> simp
  · simp

theorem headers_no_panic (hs : List (String × String)) (header : GoMap String String)
    (p : String) : GetHtmlViaHttp.headers hs header ≠ .error (.panic p) := by
  induction hs generalizing header with
  | nil => simp [GetHtmlViaHttp.headers]
  | cons e rest ih =>
    obtain ⟨k, v⟩ := e
    unfold GetHtmlViaHttp.headers
    split_ifs
    · simp
    · simp
    · exact ih _

theorem GetHtmlViaHttp_no_panic (lib : StdLib) (cfg : config.SourceConfiguration) (w : World)
    (p : String) : (GetHtmlViaHttp lib cfg w).1 ≠ .error (.panic p) := by
  unfold GetHtmlViaHttp
  split
  · simp
  · split
    · rename_i f hf
      intro h
      simp only at h
      have hfp : f = .panic p := Except.error.inj h
      exact headers_no_panic _ _ p (hfp ▸ hf)
    · simp only []
      split
      · simp
      · split
        · simp
        · split_ifs
          · simp
          · exact wrapError_no_panic _ _ (fun q => GetDecodedHttpBody_no_panic lib _ _ q) p

theorem CreateHtmlContent_no_panic (lib : StdLib) (html : String) (p : String) :
    content.CreateHtmlContent lib html ≠ .error (.panic p) := by
  unfold content.CreateHtmlContent
  split_ifs
  · simp
  · split <;> simp

/-- What `GetHtmlContent` leaves unchanged, and what it stores when caching is enabled. -/
theorem GetHtmlContent_spec (lib : StdLib) (s : source) (w : World) :
    (s.GetHtmlContent lib w).2.1.cfg = s.cfg ∧
    (s.GetHtmlContent lib w).2.1.valueRegex = s.valueRegex ∧
    (s.GetHtmlContent lib w).2.1.valueKeys = s.valueKeys ∧
    (∀ p, (s.GetHtmlContent lib w).1 ≠ .error (.panic p)) ∧
    (∀ html, (s.GetHtmlContent lib w).1 = .ok html → s.cfg.CachingEnable = true →
      (s.GetHtmlContent lib w).2.1.htmlContentCache.isSet = true ∧
      (s.GetHtmlContent lib w).2.1.htmlContentCache.value = some html) := by
  unfold source.GetHtmlContent
  split
  · rename_i html w1 hget
    obtain ⟨hset, hval⟩ := utils.cacheable_Get_true _ _ _ _ hget
    refine ⟨rfl, rfl, rfl, by simp, ?_⟩
    intro html' h _
    simp only [Except.ok.injEq] at h
    subst h
    exact ⟨hset, hval⟩
  · split
    · rename_i f w2 hf
      refine ⟨rfl, rfl, rfl, ?_, by intro html h; cases f <;> simp [wrapError] at h⟩
      intro p
      apply wrapError_no_panic
      intro q hq
      have hfp : f = .panic q := Except.error.inj hq
      exact GetHtmlViaHttp_no_panic lib s.cfg _ q ((congrArg Prod.fst hf).trans (by rw [hfp]))
    · split
      · rename_i f hf
        refine ⟨rfl, rfl, rfl, ?_, by intro html h; cases f <;> simp [wrapError] at h⟩
        intro p
        apply wrapError_no_panic
        intro q hq
        have hfp : f = .panic q := Except.error.inj hq
        exact CreateHtmlContent_no_panic lib _ q (hfp ▸ hf)
      · split_ifs with hc
        · refine ⟨rfl, rfl, rfl, by simp, ?_⟩
          intro html' h _
          simp only [Except.ok.injEq] at h
          subst h
          exact ⟨rfl, rfl⟩
        · refine ⟨rfl, rfl, rfl, by simp, ?_⟩
          intro html' _ hc'
          exact absurd hc' hc

end source

namespace content

theorem GetFirstElement_shape (lib : StdLib) (h : htmlContent) (xpath : String) :
    (∃ o b e, h.GetFirstElement lib xpath = .returned o b (some e)) ∨
    (∃ o, h.GetFirstElement lib xpath = .returned o false none) ∨
    (∃ el, h.GetFirstElement lib xpath = .returned (some el) true none) ∨
    (∃ p, h.GetFirstElement lib xpath = .panicked p ∧
      lib.QueryAll h.document xpath = .error (.panic p)) := by
  unfold htmlContent.GetFirstElement Query
  cases hq : lib.QueryAll h.document xpath with
  | error f =>
    cases f with
    | error e => exact Or.inl ⟨_, _, _, rfl⟩
    | panic p => exact Or.inr (Or.inr (Or.inr ⟨p, rfl, rfl⟩))
  | ok nodes =>
    cases nodes with
    | nil => exact Or.inr (Or.inl ⟨_, rfl⟩)
    | cons n rest => exact Or.inr (Or.inr (Or.inl ⟨_, rfl⟩))

theorem GetSingleElement_shape (lib : StdLib) (h : htmlContent) (xpath : String) :
    (∃ o b e, h.GetSingleElement lib xpath = .returned o b (some e)) ∨
    (∃ o, h.GetSingleElement lib xpath = .returned o false none) ∨
    (∃ el, h.GetSingleElement lib xpath = .returned (some el) true none) ∨
    (∃ p, h.GetSingleElement lib xpath = .panicked p ∧
      lib.QueryAll h.document xpath = .error (.panic p)) := by
  unfold htmlContent.GetSingleElement
  cases hq : lib.QueryAll h.document xpath with
  | error f =>
    cases f with
    | error e => exact Or.inl ⟨_, _, _, rfl⟩
    | panic p => exact Or.inr (Or.inr (Or.inr ⟨p, rfl, rfl⟩))
  | ok nodes =>
    match nodes with
    | [] => exact Or.inl ⟨_, _, _, rfl⟩
    | [n] => exact Or.inr (Or.inr (Or.inl ⟨_, rfl⟩))
    | _ :: _ :: _ => exact Or.inl ⟨_, _, _, rfl⟩

theorem GetInnerTextFloat_no_panic (lib : StdLib) (h : htmlContentElement)
    (f : Option HtmlContentValuePreprocess) (p : String) :
    h.GetInnerTextFloat lib f ≠ .error (.panic p) := by
  unfold htmlContentElement.GetInnerTextFloat
  split
  · simp
  · split <;> simp

theorem GetInnerTextInt_no_panic (lib : StdLib) (h : htmlContentElement)
    (f : Option HtmlContentValuePreprocess) (p : String) :
    h.GetInnerTextInt lib f ≠ .error (.panic p) := by
  unfold htmlContentElement.GetInnerTextInt
  split
  · simp
  · split
    · simp
    · split_ifs <;> simp

theorem GetInnerTextString_no_panic (h : htmlContentElement)
    (f : Option HtmlContentValuePreprocess) (p : String) :
    h.GetInnerTextString f ≠ .error (.panic p) := by
  unfold htmlContentElement.GetInnerTextString
  split <;> simp

end content

namespace source

theorem GetSourceValue_panic_is_query_panic (lib : StdLib) (s : source) (key : String)
    (html : content.htmlContent) (p : String)
    (hp : s.GetSourceValue lib key html = .error (.panic p)) :
    ∃ c, GetSourceValue.find key s.cfg.Values none = some c ∧
      lib.QueryAll html.document c.Xpath = .error (.panic p) := by
  unfold source.GetSourceValue at hp
  cases hfind : GetSourceValue.find key s.cfg.Values none with
  | none => simp [hfind] at hp
  | some c =>
    refine ⟨c, rfl, ?_⟩
    simp only [hfind] at hp
    revert hp
    have htyped : ∀ el : content.htmlContentElement,
        (if c.Type_ = config.VariableType.Float then
          match el.GetInnerTextFloat lib (some (GetSourceValue.sourceValuePreprocess lib s c)) with
          | .error f => wrapError "source: failed to get inner text float value: " (.error f)
          | .ok value => .ok (.float value)
        else if c.Type_ = config.VariableType.Int then
          match el.GetInnerTextInt lib (some (GetSourceValue.sourceValuePreprocess lib s c)) with
          | .error f => wrapError "source: failed to get inner text int value: " (.error f)
          | .ok value => .ok (.int value)
        else if c.Type_ = config.VariableType.String then
          match el.GetInnerTextString (some (GetSourceValue.sourceValuePreprocess lib s c)) with
          | .error f => wrapError "source: failed to get inner text string value: " (.error f)
          | .ok value => .ok (.string value)
        else .error (.error "source: invalid source value type specified") :
          Except Failure Value) ≠ .error (.panic p) := by
      intro el
      split_ifs
      · have := content.GetInnerTextFloat_no_panic lib el
          (some (GetSourceValue.sourceValuePreprocess lib s c))
        split
        · rename_i f hf
          cases f with
          | error m => simp [wrapError]
          | panic q => exact absurd hf (this q)
        · simp
      · have := content.GetInnerTextInt_no_panic lib el
          (some (GetSourceValue.sourceValuePreprocess lib s c))
        split
        · rename_i f hf
          cases f with
          | error m => simp [wrapError]
          | panic q => exact absurd hf (this q)
        · simp
      · have := content.GetInnerTextString_no_panic el
          (some (GetSourceValue.sourceValuePreprocess lib s c))
        split
        · rename_i f hf
          cases f with
          | error m => simp [wrapError]
          | panic q => exact absurd hf (this q)
        · simp
      · simp
    by_cases h1 : c.ExtractionStrategy = config.ExtractionStrategy.First
    · simp only [h1, if_true]
      rcases content.GetFirstElement_shape lib html c.Xpath with
        ⟨o, b, e, h⟩ | ⟨o, h⟩ | ⟨el, h⟩ | ⟨q, h, hq⟩
      · rw [h]; simp
      · rw [h]; simp
      · rw [h]; intro hp; exact absurd hp (htyped el)
      · rw [h]
        intro hp
        simp only [Except.error.injEq, Failure.panic.injEq] at hp
        rw [← hp]; exact hq
    · by_cases h2 : c.ExtractionStrategy = config.ExtractionStrategy.Single
      · have h1' : ¬ config.ExtractionStrategy.Single = config.ExtractionStrategy.First := by
          decide
        simp only [h2, h1', if_false, if_true]
        rcases content.GetSingleElement_shape lib html c.Xpath with
          ⟨o, b, e, h⟩ | ⟨o, h⟩ | ⟨el, h⟩ | ⟨q, h, hq⟩
        · rw [h]; simp
        · rw [h]; simp
        · rw [h]; intro hp; exact absurd hp (htyped el)
        · rw [h]
          intro hp
          simp only [Except.error.injEq, Failure.panic.injEq] at hp
          rw [← hp]; exact hq
      · simp [h1, h2]

theorem GetSourceValue_no_panic (lib : StdLib) (s : source) (key : String)
    (html : content.htmlContent) (p : String)
    (hq : ∀ xpath, lib.QueryAll html.document xpath ≠ .error (.panic p)) :
    s.GetSourceValue lib key html ≠ .error (.panic p) := by
  intro hp
  obtain ⟨c, -, hc⟩ := GetSourceValue_panic_is_query_panic lib s key html p hp
  exact hq c.Xpath hc

theorem GetSourceValue_congr (lib : StdLib) (s t : source) (key : String)
    (html : content.htmlContent) (hcfg : t.cfg = s.cfg) (hregex : t.valueRegex = s.valueRegex) :
    t.GetSourceValue lib key html = s.GetSourceValue lib key html := by
  have hpre : ∀ c, GetSourceValue.sourceValuePreprocess lib t c =
      GetSourceValue.sourceValuePreprocess lib s c := by
    intro c
    funext input
    simp only [GetSourceValue.sourceValuePreprocess, hregex]
  simp only [source.GetSourceValue, hcfg, hpre]

end source

theorem GoMap_keys_store_new {K V : Type} [DecidableEq K] (m : GoMap K V) (k : K) (v : V)
    (h : k ∉ m.keys) : (m.store k v).keys = m.keys ++ [k] := by
  induction m with
  | nil => rfl
  | cons e rest ih =>
    obtain ⟨k0, v0⟩ := e
    have hne : ¬ k0 = k := by
      intro he
      apply h
      simp [GoMap.keys, he]
    have hrest : k ∉ GoMap.keys rest := by
      intro hm
      apply h
      simp only [GoMap.keys, List.map_cons, List.mem_cons]
      exact Or.inr hm
    have := ih hrest
    simp only [GoMap.keys] at this ⊢
    simp [GoMap.store, hne, this]

namespace source

theorem loop_fails (lib : StdLib) (s : source) (html : content.htmlContent)
    (keys : List String) (result : GoMap String Value)
    (h : ∃ k ∈ keys, ∃ f, s.GetSourceValue lib k html = .error f) :
    ∃ f, GetValuesNoLock.loop lib s html keys result = .error f ∧
      ((∀ k ∈ keys, ∀ p, s.GetSourceValue lib k html ≠ .error (.panic p)) →
        ∃ msg, f = .error msg) := by
  induction keys generalizing result with
  | nil => simp at h
  | cons key rest ih =>
    unfold GetValuesNoLock.loop
    cases hv : s.GetSourceValue lib key html with
    | error f =>
      cases f with
      | error m => exact ⟨_, rfl, fun _ => ⟨_, rfl⟩⟩
      | panic p =>
        exact ⟨_, rfl, fun hno => absurd hv (hno key (List.mem_cons_self _ _) p)⟩
    | ok value =>
      simp only []
      have hrest : ∃ k ∈ rest, ∃ f, s.GetSourceValue lib k html = .error f := by
        obtain ⟨k, hk, f, hf⟩ := h
        rcases List.mem_cons.mp hk with rfl | hk
        · rw [hv] at hf; simp at hf
        · exact ⟨k, hk, f, hf⟩
      obtain ⟨f, hf, hmsg⟩ := ih (result.store key value) hrest
      exact ⟨f, hf, fun hno => hmsg (fun k hk => hno k (List.mem_cons_of_mem _ hk))⟩

theorem loop_succeeds (lib : StdLib) (s : source) (html : content.htmlContent)
    (keys : List String) (result : GoMap String Value)
    (h : ∀ k ∈ keys, ∃ v, s.GetSourceValue lib k html = .ok v)
    (hnodup : keys.Nodup) (hnew : ∀ k ∈ keys, k ∉ result.keys) :
    ∃ m, GetValuesNoLock.loop lib s html keys result = .ok m ∧
      m.keys = result.keys ++ keys ∧
      (∀ k ∈ keys, ∃ v, s.GetSourceValue lib k html = .ok v ∧ m.lookup k = some v) ∧
      (∀ k, k ∉ keys → m.lookup k = result.lookup k) := by
  induction keys generalizing result with
  | nil => exact ⟨result, rfl, by simp, by simp, fun _ _ => rfl⟩
  | cons key rest ih =>
    obtain ⟨value, hv⟩ := h key (List.mem_cons_self _ _)
    obtain ⟨hnotin, hnd⟩ := List.nodup_cons.mp hnodup
    have hkeys := GoMap_keys_store_new result key value (hnew key (List.mem_cons_self _ _))
    obtain ⟨m, hm, hmk, hmv, hframe⟩ := ih (result.store key value)
      (fun k hk => h k (List.mem_cons_of_mem _ hk)) hnd
      (by
        intro k hk hmem
        rw [hkeys, List.mem_append, List.mem_singleton] at hmem
        rcases hmem with hmem | rfl
        · exact hnew k (List.mem_cons_of_mem _ hk) hmem
        · exact hnotin hk)
    refine ⟨m, ?_, ?_, ?_, ?_⟩
    · unfold GetValuesNoLock.loop
      simp only [hv, hm]
    · rw [hmk, hkeys]; simp
    · intro k hk
      rcases List.mem_cons.mp hk with rfl | hk
      · exact ⟨value, hv, by rw [hframe k hnotin, GoMap.lookup_store_self]⟩
      · exact hmv k hk
    · intro k hk
      have hk1 : k ∉ rest := fun hm => hk (List.mem_cons_of_mem _ hm)
      have hk2 : ¬ key = k := fun he => hk (he ▸ List.mem_cons_self _ _)
      rw [hframe k hk1, GoMap.lookup_store]
      simp [hk2]

theorem AreValueKeysValid_true_nodup (s : source) (keys : List String)
    (h : s.AreValueKeysValid (some keys) = .ok true) : keys.Nodup := by
  unfold source.AreValueKeysValid at h
  rw [utils.IsDistinct_some] at h
  by_cases hn : keys.Nodup
  · exact hn
  · simp [hn] at h

theorem AreValueKeysValid_congr (s t : source) (keys : Option (List String))
    (h : t.valueKeys = s.valueKeys) : t.AreValueKeysValid keys = s.AreValueKeysValid keys := by
  simp only [source.AreValueKeysValid, h]

theorem loop_congr (lib : StdLib) (s t : source) (html : content.htmlContent)
    (keys : List String) (result : GoMap String Value)
    (hcfg : t.cfg = s.cfg) (hregex : t.valueRegex = s.valueRegex) :
    GetValuesNoLock.loop lib t html keys result = GetValuesNoLock.loop lib s html keys result := by
  induction keys generalizing result with
  | nil => rfl
  | cons key rest ih =>
    unfold GetValuesNoLock.loop
    rw [GetSourceValue_congr lib s t key html hcfg hregex]
    cases s.GetSourceValue lib key html with
    | error f => rfl
    | ok v => exact ih _

end source

namespace source

theorem GetHtmlContent_hit (lib : StdLib) (s : source) (w : World) (html : content.htmlContent)
    (hset : s.htmlContentCache.isSet = true) (hval : s.htmlContentCache.value = some html)
    (hfresh : UnixMilli (w.clock w.ticks) < s.htmlContentCache.ttlEnd) :
    ∃ w', s.GetHtmlContent lib w = (.ok html, s, w') ∧ w'.attempts = w.attempts := by
  have h1 := utils.cacheable_Get_fresh s.htmlContentCache w hset hfresh
  have h2 := (utils.cacheable_Get_attempts s.htmlContentCache w).1
  cases hget : s.htmlContentCache.Get w with
  | mk a w' =>
    rw [hget] at h1 h2
    simp only at h1 h2
    subst h1
    refine ⟨w', ?_, h2⟩
    unfold source.GetHtmlContent
    rw [hget, hval]

/-- C12. For a source with caching enabled, after a `GetValues` call that succeeded, leaving
the source `s1` with the document in its cache, a second `GetValues` call with the same names,
made in any world whose clock is before the stored expiry, returns the same mapping, makes no
request, and leaves the source as it was. -/
theorem cached_document_reused (lib : StdLib) (s s1 : source) (w w1 w2 : World)
    (keys : List String) (m : GoMap String Value)
    (hcaching : s.cfg.CachingEnable = true)
    (hfirst : s.GetValues lib w (some keys) = (.ok m, s1, w1))
    (hfresh : UnixMilli (w2.clock w2.ticks) < s1.htmlContentCache.ttlEnd) :
    (s1.GetValues lib w2 (some keys)).1 = .ok m ∧
    (s1.GetValues lib w2 (some keys)).2.2.attempts = w2.attempts ∧
    (s1.GetValues lib w2 (some keys)).2.1 = s1 := by
  obtain ⟨hcfg, hregex, hkeys, -, hstored⟩ := GetHtmlContent_spec lib s w
  cases hvalid : s.AreValueKeysValid (some keys) with
  | error f =>
    simp [source.GetValues, source.GetValuesNoLock, hvalid] at hfirst
    cases f <;> simp [wrapError] at hfirst
  | ok b =>
    cases b with
    | false => simp [source.GetValues, source.GetValuesNoLock, hvalid, wrapError] at hfirst
    | true =>
      cases hg : s.GetHtmlContent lib w with
      | mk r rest =>
        obtain ⟨t, w1'⟩ := rest
        rw [hg] at hcfg hregex hkeys hstored
        simp only at hcfg hregex hkeys hstored
        cases r with
        | error f =>
          simp only [source.GetValues, source.GetValuesNoLock, hvalid, hg] at hfirst
          cases f <;> simp [wrapError] at hfirst
        | ok html =>
          simp only [source.GetValues, source.GetValuesNoLock, hvalid, hg, Option.getD_some,
            Prod.mk.injEq] at hfirst
          obtain ⟨hloop, ht, -⟩ := hfirst
          subst ht
          have hloop' : GetValuesNoLock.loop lib t html keys [] = .ok m := by
            cases hl : GetValuesNoLock.loop lib t html keys [] with
            | error f =>
              rw [hl] at hloop
              cases f <;> simp [wrapError] at hloop
            | ok m' =>
              rw [hl] at hloop
              simpa [wrapError] using hloop
          obtain ⟨hset, hval⟩ := hstored html rfl hcaching
          obtain ⟨w', hhit, hatt⟩ := GetHtmlContent_hit lib t w2 html hset hval hfresh
          have hvalid' : t.AreValueKeysValid (some keys) = .ok true := by
            rw [AreValueKeysValid_congr s t (some keys) hkeys, hvalid]
          simp only [source.GetValues, source.GetValuesNoLock, hvalid', hhit, Option.getD_some,
            hloop', wrapError]
          exact ⟨trivial, hatt, trivial⟩

/-- Witness of C12: the source "stock", asked for "price" and asked again thirty seconds later
while the network is down. -/
theorem cached_document_reused_witness :
    stockSourceInstance.cfg.CachingEnable = true ∧
    (stockSourceInstance.GetValues scenarioLib scenarioWorld (some ["price"])).1 =
      .ok [("price", .float scenarioPrice)] ∧
    ((stockSourceInstance.GetValues scenarioLib scenarioWorld (some ["price"])).2.1.GetValues
      scenarioLib soonWorld (some ["price"])).1 = .ok [("price", .float scenarioPrice)] ∧
    ((stockSourceInstance.GetValues scenarioLib scenarioWorld (some ["price"])).2.1.GetValues
      scenarioLib soonWorld (some ["price"])).2.2.attempts = soonWorld.attempts :=
  have h := cached_document_reused scenarioLib stockSourceInstance
    (stockSourceInstance.GetValues scenarioLib scenarioWorld (some ["price"])).2.1
    scenarioWorld (stockSourceInstance.GetValues scenarioLib scenarioWorld (some ["price"])).2.2
    soonWorld ["price"] [("price", .float scenarioPrice)] rfl rfl (by decide)
  ⟨rfl, rfl, h.1, h.2.1⟩

end source

namespace source

/-- C14. For every body, `GetDecodedHttpBody` with the empty content encoding returns the body
unchanged and no error, and with a content encoding other than the empty one, "gzip" and
"deflate" it returns no text but the unsupported-encoding error. -/
theorem decoded_body_identity_and_unsupported (lib : StdLib) (body contentEncoding : String) :
    GetDecodedHttpBody lib body "" = .ok body ∧
    (contentEncoding ≠ "" → contentEncoding ≠ "gzip" → contentEncoding ≠ "deflate" →
      GetDecodedHttpBody lib body contentEncoding =
        .error (.error "source: unsupported content encoding")) := by
  refine ⟨by simp [GetDecodedHttpBody], ?_⟩
  intro h1 h2 h3
  simp [GetDecodedHttpBody, h1, h2, h3]

/-- Witness of C14: the content encoding "br". -/
theorem decoded_body_identity_and_unsupported_witness :
    ("br" : String) ≠ "" ∧ ("br" : String) ≠ "gzip" ∧ ("br" : String) ≠ "deflate" ∧
    GetDecodedHttpBody scenarioLib scenarioDocument "br" =
      .error (.error "source: unsupported content encoding") :=
  ⟨by decide, by decide, by decide,
    (decoded_body_identity_and_unsupported scenarioLib scenarioDocument "br").2
      (by decide) (by decide) (by decide)⟩

end source

namespace content

/-- C15. On a document in which the query `//span` matches no node, `GetSingleElement` returns
found = true together with the error "multiple matching nodes found", where `GetFirstElement`
returns found = false and no error. -/
theorem single_element_zero_matches_is_error :
    scenarioLib.QueryAll emptyDocument.document "//span" = .ok [] ∧
    emptyDocument.GetSingleElement scenarioLib "//span" =
      .returned none true (some "content: multiple matching nodes found: %!w(<nil>)") ∧
    emptyDocument.GetFirstElement scenarioLib "//span" = .returned none false none := by
  decide

/-- C17. On a platform with a 64-bit `int`, the text "-2147483649", which denotes an integer
below the 32-bit signed range, is returned by `GetInnerTextInt` and by `GetAttributeValueInt`
as -2147483649 with no error: only the upper bound is tested. -/
theorem int_below_int32_accepted :
    scenarioLib.intSize = 64 ∧
    ParseInt 64 "-2147483649" = .ok (-2147483649) ∧
    (-2147483649 : Int) < -2 ^ 31 ∧
    belowInt32Element.GetInnerTextInt scenarioLib none = .ok (-2147483649) ∧
    belowInt32Element.GetAttributeValueInt scenarioLib "data-n" none = .ok (-2147483649) := by
  decide

end content

namespace utils

/-- C19. For every value `v`, after `Set(v)` the slot answers `Get` with `(v, true)` and
`IsSet` with true in every world, that is at every reading of the clock, which it does not even
consult; a slot that was never written answers `Get` with the zero value and false, and
`IsSet` with false. -/
theorem set_then_get_roundtrip {T : Type} [Inhabited T] (c : cacheable T) (v : T) (w : World) :
    (c.Set v).Get w = ((v, true), w) ∧ (c.Set v).IsSet w = (true, w) ∧
    (NewCacheable : cacheable T).Get w = ((default, false), w) ∧
    (NewCacheable : cacheable T).IsSet w = (false, w) := by
  simp [cacheable.Set, cacheable.Get, cacheable.IsSet, NewCacheable]

end utils

namespace source

theorem GetSingleElement_many (lib : StdLib) (html : content.htmlContent) (xpath : String)
    (nodes : List Node) (hquery : lib.QueryAll html.document xpath = .ok nodes)
    (hmany : 2 ≤ nodes.length) :
    html.GetSingleElement lib xpath =
      .returned none true (some "content: multiple matching nodes found: %!w(<nil>)") := by
  unfold content.htmlContent.GetSingleElement
  rw [hquery]
  match nodes, hmany with
  | _ :: _ :: _, _ => rfl

/-- C16. For every document and query: when two or more nodes match, `GetSingleElement`
returns an error and no element, and a source value configured with the strategy Single on
that query fails to extract; when exactly one node matches, `GetSingleElement` returns that
node with found = true and no error. -/
theorem single_strategy_rejects_ambiguity (lib : StdLib) (html : content.htmlContent)
    (xpath : String) (nodes : List Node)
    (hquery : lib.QueryAll html.document xpath = .ok nodes) :
    (2 ≤ nodes.length →
      html.GetSingleElement lib xpath =
        .returned none true (some "content: multiple matching nodes found: %!w(<nil>)") ∧
      ∀ (s : source) (key : String) (sourceValueConfig : config.SourceValueConfiguration),
        GetSourceValue.find key s.cfg.Values none = some sourceValueConfig →
        sourceValueConfig.ExtractionStrategy = config.ExtractionStrategy.Single →
        sourceValueConfig.Xpath = xpath →
        s.GetSourceValue lib key html = .error (.error
          "source: failed to extract single element via xpath: content: multiple matching nodes found: %!w(<nil>)")) ∧
    (∀ node, nodes = [node] →
      html.GetSingleElement lib xpath = .returned (some { node := node }) true none) := by
  refine ⟨fun hmany => ⟨GetSingleElement_many lib html xpath nodes hquery hmany, ?_⟩, ?_⟩
  · intro s key sourceValueConfig hfind hsingle hxpath
    have hsel := GetSingleElement_many lib html xpath nodes hquery hmany
    have hne : ¬ sourceValueConfig.ExtractionStrategy = config.ExtractionStrategy.First := by
      rw [hsingle]; decide
    unfold source.GetSourceValue
    simp only [hfind, hne, if_false, hsingle, if_true, hxpath, hsel]
    rfl
  · intro node hnode
    subst hnode
    unfold content.htmlContent.GetSingleElement
    rw [hquery]
    rfl

/-- Witness of C16: the value "count" on a document with two spans. -/
theorem single_strategy_rejects_ambiguity_witness :
    twoSpanLib.QueryAll twoSpanDocument.document "//span" = .ok twoSpans ∧
    2 ≤ twoSpans.length ∧
    twoSpanDocument.GetSingleElement twoSpanLib "//span" =
      .returned none true (some "content: multiple matching nodes found: %!w(<nil>)") ∧
    countSource.GetSourceValue twoSpanLib "count" twoSpanDocument = .error (.error
      "source: failed to extract single element via xpath: content: multiple matching nodes found: %!w(<nil>)") :=
  have h := (single_strategy_rejects_ambiguity twoSpanLib twoSpanDocument "//span" twoSpans rfl).1
    (by decide)
  ⟨rfl, by decide, h.1, h.2 countSource "count" _ rfl rfl rfl⟩

end source

namespace content

/-- C18. For every element and every pre-process callback: when the callback panics on the
text it is given, `GetInnerText` and `GetAttributeValue` return an error, and so do the String,
Int and Float extractors built on them, none of them panicking; when the callback returns, its
value and its error are returned unchanged (for `GetAttributeValue`, under a non-empty
attribute name, without which the callback is not called). -/
theorem preprocess_panic_recovered (lib : StdLib) (h : htmlContentElement) (name : String)
    (preprocess : HtmlContentValuePreprocess) :
    (∀ msg, preprocess h.node.inner = .panicked msg →
      h.GetInnerText (some preprocess) =
        ("", some ("content: inner text value preprocessing failed: " ++ msg)) ∧
      (∃ e, h.GetInnerTextString (some preprocess) = .error (.error e)) ∧
      (∃ e, h.GetInnerTextInt lib (some preprocess) = .error (.error e)) ∧
      (∃ e, h.GetInnerTextFloat lib (some preprocess) = .error (.error e))) ∧
    (∀ msg, preprocess ((h.node.attrs.lookup name).getD "") = .panicked msg →
      (∃ e, h.GetAttributeValue name (some preprocess) = ("", some e)) ∧
      (∃ e, h.GetAttributeValueString name (some preprocess) = .error (.error e)) ∧
      (∃ e, h.GetAttributeValueInt lib name (some preprocess) = .error (.error e)) ∧
      (∃ e, h.GetAttributeValueFloat lib name (some preprocess) = .error (.error e))) ∧
    (∀ value err, preprocess h.node.inner = .returned value err →
      h.GetInnerText (some preprocess) = (value, err)) ∧
    (∀ value err, name.length ≠ 0 →
      preprocess ((h.node.attrs.lookup name).getD "") = .returned value err →
      h.GetAttributeValue name (some preprocess) = (value, err)) := by
  refine ⟨?_, ?_, ?_, ?_⟩
  · intro msg hp
    have hg : h.GetInnerText (some preprocess) =
        ("", some ("content: inner text value preprocessing failed: " ++ msg)) := by
      simp [htmlContentElement.GetInnerText, hp]
    exact ⟨hg, ⟨_, by simp only [htmlContentElement.GetInnerTextString, hg]; rfl⟩,
      ⟨_, by simp only [htmlContentElement.GetInnerTextInt, hg]; rfl⟩,
      ⟨_, by simp only [htmlContentElement.GetInnerTextFloat, hg]; rfl⟩⟩
  · intro msg hp
    have hg : ∃ e, h.GetAttributeValue name (some preprocess) = ("", some e) := by
      unfold htmlContentElement.GetAttributeValue
      by_cases hn : name.length = 0
      · exact ⟨_, by simp only [hn, if_true]; rfl⟩
      · exact ⟨_, by simp only [hn, if_false, hp]; rfl⟩
    obtain ⟨e, he⟩ := hg
    exact ⟨⟨e, he⟩, ⟨_, by simp only [htmlContentElement.GetAttributeValueString, he]; rfl⟩,
      ⟨_, by simp only [htmlContentElement.GetAttributeValueInt, he]; rfl⟩,
      ⟨_, by simp only [htmlContentElement.GetAttributeValueFloat, he]; rfl⟩⟩
  · intro value err hp
    simp [htmlContentElement.GetInnerText, hp]
  · intro value err hn hp
    simp [htmlContentElement.GetAttributeValue, hn, hp]

/-- Witness of C18: a callback that panics, and one that trims. -/
theorem preprocess_panic_recovered_witness :
    priceElement.GetInnerText (some (fun _ => .panicked "runtime error: index out of range [-1]")) =
      ("", some "content: inner text value preprocessing failed: runtime error: index out of range [-1]") ∧
    priceElement.GetAttributeValue "id" (some (fun input => .returned (TrimSpace input) none)) =
      ("price", none) :=
  have h := preprocess_panic_recovered scenarioLib priceElement "id"
    (fun _ => .panicked "runtime error: index out of range [-1]")
  have g := preprocess_panic_recovered scenarioLib priceElement "id"
    (fun input => .returned (TrimSpace input) none)
  ⟨(h.1 _ rfl).1, g.2.2.2 "price" none (by decide) (by decide)⟩

end content

theorem wrapInt_of_range (bits : Nat) (x : Int) (hbits : 1 ≤ bits)
    (hlo : -2 ^ (bits - 1) ≤ x) (hhi : x < 2 ^ (bits - 1)) : wrapInt bits x = x := by
  unfold wrapInt
  have hpow : (2 : Int) ^ bits = 2 * 2 ^ (bits - 1) := by
    obtain ⟨k, rfl⟩ : ∃ k, bits = k + 1 := ⟨bits - 1, by omega⟩
    simp [pow_succ, mul_comm]
  have h1 : (x + 2 ^ (bits - 1)) % 2 ^ bits = x + 2 ^ (bits - 1) := by
    apply Int.emod_eq_of_lt
    · linarith
    · rw [hpow]; linarith
  rw [h1]; ring

namespace source

theorem attempt_all_fail (request : Request) (n : Nat) (w : World)
    (hfail : ∀ i r, w.transport i request = .ok r → r.StatusCode ≠ 200) :
    GetHtmlViaHttp.attempt request n w = (none, { w with attempts := w.attempts + n }) := by
  induction n generalizing w with
  | zero => rfl
  | succ n ih =>
    unfold GetHtmlViaHttp.attempt
    have hstep : (w.Do request).2 = { w with attempts := w.attempts + 1 } := rfl
    have hrec := ih (w.Do request).2 hfail
    cases hdo : (w.Do request).1 with
    | error e =>
      simp only []
      rw [hrec, hstep]
      simp only [Nat.add_assoc, Nat.add_comm 1 n]
    | ok response =>
      have h200 : ¬ response.StatusCode = 200 := hfail w.attempts response hdo
      simp only [h200, if_false]
      rw [hrec, hstep]
      simp only [Nat.add_assoc, Nat.add_comm 1 n]

/-- Below the overflow of `Retries + 1`, a transport that never answers 200 is asked exactly
`Retries + 1` times, and the retries-exceeded error is returned. -/
theorem attempts_equal_retries_plus_one (lib : StdLib) (cfg : config.SourceConfiguration)
    (w : World) (header : GoMap String String)
    (hurl : lib.urlParse cfg.Url = none)
    (hheaders : GetHtmlViaHttp.headers cfg.HttpHeaders [("user-agent", "ApiKit/")] = .ok header)
    (hbits : 1 ≤ lib.intSize) (hretries : 0 ≤ cfg.Retries)
    (hfit : cfg.Retries + 1 < 2 ^ (lib.intSize - 1))
    (hfail : ∀ i request r, w.transport i request = .ok r → r.StatusCode ≠ 200) :
    GetHtmlViaHttp lib cfg w =
      (.error (.error "source: extraction http request retries count exceeded"),
        { w with attempts := w.attempts + (cfg.Retries + 1).toNat }) := by
  have hwrap : wrapInt lib.intSize (cfg.Retries + 1) = cfg.Retries + 1 := by
    apply wrapInt_of_range _ _ hbits _ hfit
    have : (0 : Int) ≤ 2 ^ (lib.intSize - 1) := by positivity
    linarith
  unfold GetHtmlViaHttp
  simp only [hurl, hheaders, hwrap]
  rw [attempt_all_fail _ _ _ (fun i r => hfail i _ r)]

/-- C13. With the retry count 9223372036854775807 on a platform with a 64-bit `int`, which
`isValid` accepts, and a network that refuses every request, `GetHtmlViaHttp` returns the
retries-exceeded error after no request at all, because `Retries + 1` wraps around to a
negative number; with the retry count 2 it makes 3 requests. -/
theorem retries_overflow_makes_no_attempt :
    (maxRetriesSource.isValid scenarioLib).1 = true ∧
    (GetHtmlViaHttp scenarioLib maxRetriesSource failingWorld).1 =
      .error (.error "source: extraction http request retries count exceeded") ∧
    (GetHtmlViaHttp scenarioLib maxRetriesSource failingWorld).2.attempts = 0 ∧
    (GetHtmlViaHttp scenarioLib stockSource failingWorld).2.attempts = 3 := by
  decide

end source

namespace utils

/-- Away from the sentinel, the slot written by `SetWithTTL` is present exactly while the
stored expiry, in milliseconds, lies after the reading of the clock. -/
theorem ttl_presence_away_from_sentinel {T : Type} [Inhabited T] (c : cacheable T) (v : T)
    (d : Int) (w w' : World) (hsentinel : UnixMilli (w.clock w.ticks + d) ≠ -1) :
    ((c.SetWithTTL v d w).1.Get w').1 =
      (if UnixMilli (w'.clock w'.ticks) < UnixMilli (w.clock w.ticks + d) then (v, true)
        else (default, false)) ∧
    ((c.SetWithTTL v d w).1.IsSet w').1 =
      decide (UnixMilli (w'.clock w'.ticks) < UnixMilli (w.clock w.ticks + d)) := by
  have hs : ¬ UnixMilli (w.clock w.ticks + d) = -1 := hsentinel
  simp only [cacheable.SetWithTTL, cacheable.Get, cacheable.IsSet, World.now]
  by_cases h : UnixMilli (w'.clock w'.ticks) < UnixMilli (w.clock w.ticks + d)
  · have h' : ¬ UnixMilli (w.clock w.ticks + d) ≤ UnixMilli (w'.clock w'.ticks) := not_le.mpr h
    simp [h, h', hs]
  · have h' : UnixMilli (w.clock w.ticks + d) ≤ UnixMilli (w'.clock w'.ticks) := not_lt.mp h
    simp [h, h', hs]

/-- C20. When `SetWithTTL` is called with a duration for which the expiry falls in the
millisecond before the Unix epoch, the stored expiry is -1, the mark of a slot without expiry:
`Get` and `IsSet` report the value present years later, although the duration is negative. -/
theorem ttl_ending_at_sentinel_never_expires :
    (-1700000000000500000 : Int) ≤ 0 ∧
    ((NewCacheable : cacheable String).SetWithTTL "document" (-1700000000000500000)
      scenarioWorld).1.ttlEnd = -1 ∧
    (((NewCacheable : cacheable String).SetWithTTL "document" (-1700000000000500000)
      scenarioWorld).1.Get laterWorld).1 = ("document", true) ∧
    (((NewCacheable : cacheable String).SetWithTTL "document" (-1700000000000500000)
      scenarioWorld).1.IsSet laterWorld).1 = true := by
  decide

end utils

/-! ## The keyed cache and distinct slices -/

theorem GoMap_lookup_delete_other {K V : Type} [DecidableEq K] (m : GoMap K V) (k k' : K)
    (h : k ≠ k') : (m.delete k).lookup k' = m.lookup k' := by
  induction m with
  | nil => rfl
  | cons e rest ih =>
    obtain ⟨k0, v0⟩ := e
    by_cases h0 : k0 = k
    · subst h0
      simp [GoMap.delete, GoMap.lookup, h]
    · by_cases h1 : k0 = k'
      · subst h1
        simp [GoMap.delete, GoMap.lookup, h0]
      · simp [GoMap.delete, GoMap.lookup, h0, h1, ih]

theorem GoMap_lookup_delete_self {K V : Type} [DecidableEq K] (m : GoMap K V) (k : K)
    (hnodup : m.keys.Nodup) : (m.delete k).lookup k = none := by
  induction m with
  | nil => rfl
  | cons e rest ih =>
    obtain ⟨k0, v0⟩ := e
    simp only [GoMap.keys, List.map_cons, List.nodup_cons] at hnodup
    by_cases h0 : k0 = k
    · subst h0
      simp only [GoMap.delete, if_true]
      rw [GoMap.lookup_eq_none_iff]
      exact hnodup.1
    · simp only [GoMap.delete, h0, if_false, GoMap.lookup]
      exact ih hnodup.2

theorem GoMap_keys_store_nodup {K V : Type} [DecidableEq K] (m : GoMap K V) (k : K) (v : V)
    (hnodup : m.keys.Nodup) : (m.store k v).keys.Nodup := by
  by_cases hk : k ∈ m.keys
  · have hsame : (m.store k v).keys = m.keys := by
      clear hnodup
      induction m with
      | nil => simp [GoMap.keys] at hk
      | cons e rest ih =>
        obtain ⟨k0, v0⟩ := e
        by_cases h0 : k0 = k
        · simp [GoMap.store, GoMap.keys, h0]
        · have hk' : k ∈ GoMap.keys rest := by
            simp only [GoMap.keys, List.map_cons, List.mem_cons] at hk
            rcases hk with hk | hk
            · exact absurd hk.symm h0
            · exact hk
          have := ih hk'
          simp only [GoMap.keys] at this ⊢
          simp [GoMap.store, h0, this]
    rw [hsame]; exact hnodup
  · rw [GoMap_keys_store_new m k v hk]
    exact List.Nodup.append hnodup (List.nodup_singleton k) (by simpa using hk)

theorem GoMap_keys_delete_nodup {K V : Type} [DecidableEq K] (m : GoMap K V) (k : K)
    (hnodup : m.keys.Nodup) : (m.delete k).keys.Nodup := by
  have hsub : List.Sublist (m.delete k).keys m.keys := by
    clear hnodup
    induction m with
    | nil => exact List.Sublist.refl _
    | cons e rest ih =>
      obtain ⟨k0, v0⟩ := e
      by_cases h0 : k0 = k
      · simp only [GoMap.delete, h0, if_true, GoMap.keys, List.map_cons]
        exact List.sublist_cons_self _ _
      · simp only [GoMap.delete, h0, if_false, GoMap.keys, List.map_cons]
        exact List.Sublist.cons₂ _ ih
  exact hnodup.sublist hsub

namespace utils

/-- C22. For the keyed cache, whose map has distinct keys, and every key `k`: `Remove(k)`
returns true exactly when an entry for `k` is stored; after it `IsSet(k)` is false and `Get(k)`
returns the zero value and false, in every world; every other key keeps its entry and the
answers of `IsSet` and `Get`; and the keys of the map stay distinct. -/
theorem keyed_remove (T : Type) [Inhabited T] (cache : inMemoryMapCache T) (k : String)
    (w : World) (hmap : cache.values.keys.Nodup) :
    ((cache.Remove k).1 = true ↔ ∃ entry, cache.values.lookup k = some entry) ∧
    (cache.Remove k).2.IsSet k w = (false, w) ∧
    (cache.Remove k).2.Get k w = ((default, false), w) ∧
    (∀ k', k' ≠ k →
      (cache.Remove k).2.values.lookup k' = cache.values.lookup k' ∧
      (cache.Remove k).2.IsSet k' w = cache.IsSet k' w ∧
      (cache.Remove k).2.Get k' w = cache.Get k' w) ∧
    (cache.Remove k).2.values.keys.Nodup := by
  have hother : ∀ k', k' ≠ k → (cache.Remove k).2.values.lookup k' = cache.values.lookup k' := by
    intro k' hk
    unfold inMemoryMapCache.Remove
    cases cache.values.lookup k with
    | none => rfl
    | some e => exact GoMap_lookup_delete_other _ _ _ (Ne.symm hk)
  have hself : (cache.Remove k).2.values.lookup k = none := by
    unfold inMemoryMapCache.Remove
    cases h : cache.values.lookup k with
    | none => exact h
    | some e => exact GoMap_lookup_delete_self _ _ hmap
  refine ⟨?_, ?_, ?_, ?_, ?_⟩
  · unfold inMemoryMapCache.Remove
    cases cache.values.lookup k <;> simp
  · simp only [inMemoryMapCache.IsSet, hself]
  · simp only [inMemoryMapCache.Get, hself]
  · intro k' hk
    refine ⟨hother k' hk, ?_, ?_⟩
    · simp only [inMemoryMapCache.IsSet, hother k' hk]
    · simp only [inMemoryMapCache.Get, hother k' hk]
  · unfold inMemoryMapCache.Remove
    cases cache.values.lookup k with
    | none => exact hmap
    | some e => exact GoMap_keys_delete_nodup _ _ hmap

/-- The keys of the map of a keyed cache are distinct at creation and stay so under `Set`
and `SetWithTTLEnd`, hence under `SetWithTTL`. -/
theorem keyed_cache_keys_nodup {T : Type} (cache : inMemoryMapCache T) (k : String) (v : T)
    (end_ : Int) (w : World) (hmap : cache.values.keys.Nodup) :
    (NewEmptyCache : inMemoryMapCache T).values.keys.Nodup ∧
    (cache.Set k v).values.keys.Nodup ∧
    (cache.SetWithTTLEnd k v end_ w).1.values.keys.Nodup := by
  refine ⟨List.nodup_nil, GoMap_keys_store_nodup _ _ _ hmap, ?_⟩
  unfold inMemoryMapCache.SetWithTTLEnd
  split_ifs
  · exact hmap
  · exact GoMap_keys_store_nodup _ _ _ hmap

/-- Witness of C22: a cache with two keys, one of which is removed. -/
theorem keyed_remove_witness :
    (((NewEmptyCache : inMemoryMapCache Int).Set "example-key" 3).Set "other-key" 7).values.keys.Nodup ∧
    ((((NewEmptyCache : inMemoryMapCache Int).Set "example-key" 3).Set "other-key" 7).Remove
      "example-key").1 = true ∧
    ((((NewEmptyCache : inMemoryMapCache Int).Set "example-key" 3).Set "other-key" 7).Remove
      "example-key").2.IsSet "example-key" scenarioWorld = (false, scenarioWorld) :=
  have h := keyed_remove Int
    (((NewEmptyCache : inMemoryMapCache Int).Set "example-key" 3).Set "other-key" 7)
    "example-key" scenarioWorld (by decide)
  ⟨by decide, h.1.mpr ⟨_, rfl⟩, h.2.1⟩

/-- C23. On the empty keyed cache, `SetWithTTL` with a duration of 60 seconds stores nothing:
thirty seconds later `IsSet` is false and `Get` returns the zero value and false, although the
expiry lies ahead.  With a duration of -60 seconds it stores the entry, and years after that
expiry `IsSet` is true and `Get` returns the value. -/
theorem keyed_ttl_inverted :
    ((NewEmptyCache : inMemoryMapCache Int).SetWithTTL "example-key" 3 60000000000
      scenarioWorld).1 = NewEmptyCache ∧
    (((NewEmptyCache : inMemoryMapCache Int).SetWithTTL "example-key" 3 60000000000
      scenarioWorld).1.IsSet "example-key" soonWorld).1 = false ∧
    (((NewEmptyCache : inMemoryMapCache Int).SetWithTTL "example-key" 3 60000000000
      scenarioWorld).1.Get "example-key" soonWorld).1 = (0, false) ∧
    ((NewEmptyCache : inMemoryMapCache Int).SetWithTTL "example-key" 3 (-60000000000)
      scenarioWorld).1.values = [("example-key", { value := 3, ttlEnd := 1699999940 })] ∧
    (((NewEmptyCache : inMemoryMapCache Int).SetWithTTL "example-key" 3 (-60000000000)
      scenarioWorld).1.IsSet "example-key" laterWorld).1 = true ∧
    (((NewEmptyCache : inMemoryMapCache Int).SetWithTTL "example-key" 3 (-60000000000)
      scenarioWorld).1.Get "example-key" laterWorld).1 = (3, true) := by
  decide

/-- C24. For every non-nil slice, `IsDistinct` returns a boolean, which is true exactly when no
two different positions of the slice hold the same element; for the empty slice it is true. -/
theorem is_distinct_iff_no_repeat {T : Type} [DecidableEq T] (s : List T) :
    (∃ b, IsDistinct (some s) = .ok b ∧
      (b = true ↔ ∀ (i j : Fin s.length), i ≠ j → s.get i ≠ s.get j)) ∧
    IsDistinct (some ([] : List T)) = .ok true := by
  refine ⟨⟨decide s.Nodup, IsDistinct_some s, ?_⟩, rfl⟩
  rw [decide_eq_true_iff, List.nodup_iff_injective_get]
  constructor
  · intro h i j hij heq
    exact hij (h heq)
  · intro h i j heq
    by_contra hij
    exact h i j hij heq

end utils

/-! ## The pre-process closure, lifetimes and rejected requests -/

namespace source

theorem valueRegex_lookup_some (lib : StdLib) (vs : List config.SourceValueConfiguration)
    (m r : GoMap String String) (h : CreateSource.valueRegex lib vs m = .ok r) (k : String)
    (hk : m.lookup k = some k ∨ ∃ v ∈ vs, v.ExtractionRegex = k ∧ k.length ≠ 0) :
    r.lookup k = some k := by
  induction vs generalizing m with
  | nil =>
    simp only [CreateSource.valueRegex, Except.ok.injEq] at h
    subst h
    rcases hk with hk | ⟨v, hv, -⟩
    · exact hk
    · simp at hv
  | cons v rest ih =>
    unfold CreateSource.valueRegex at h
    by_cases hlen : v.ExtractionRegex.length = 0
    · simp only [hlen, if_true] at h
      apply ih m h
      rcases hk with hk | ⟨v', hv', heq, hne⟩
      · exact Or.inl hk
      · rcases List.mem_cons.mp hv' with rfl | hv'
        · rw [heq] at hlen; exact absurd hlen hne
        · exact Or.inr ⟨v', hv', heq, hne⟩
    · simp only [hlen, if_false] at h
      cases hc : lib.regexpCompile v.ExtractionRegex with
      | some e => simp [hc] at h
      | none =>
        simp only [hc] at h
        apply ih _ h
        by_cases hvk : v.ExtractionRegex = k
        · left
          rw [GoMap.lookup_store, hvk]
          simp
        · rcases hk with hk | ⟨v', hv', heq, hne⟩
          · left
            rw [GoMap.lookup_store]
            simp [hvk, hk]
          · rcases List.mem_cons.mp hv' with rfl | hv'
            · exact absurd heq hvk
            · exact Or.inr ⟨v', hv', heq, hne⟩

theorem valueRegex_lookup_none (lib : StdLib) (vs : List config.SourceValueConfiguration)
    (m r : GoMap String String) (h : CreateSource.valueRegex lib vs m = .ok r) (k : String)
    (hm : m.lookup k = none) (hk : k.length = 0) : r.lookup k = none := by
  induction vs generalizing m with
  | nil =>
    simp only [CreateSource.valueRegex, Except.ok.injEq] at h
    subst h
    exact hm
  | cons v rest ih =>
    unfold CreateSource.valueRegex at h
    by_cases hlen : v.ExtractionRegex.length = 0
    · simp only [hlen, if_true] at h
      exact ih m h hm
    · simp only [hlen, if_false] at h
      cases hc : lib.regexpCompile v.ExtractionRegex with
      | some e => simp [hc] at h
      | none =>
        simp only [hc] at h
        apply ih _ h
        rw [GoMap.lookup_store]
        have hvk : ¬ v.ExtractionRegex = k := fun he => hlen (he ▸ hk)
        simp [hvk, hm]

/-- C25. For every source whose regex table is the one `CreateSource` builds from its
configuration, whatever its document cache holds, every value configuration of it with a group
index of at least zero, as the data model and `isValid` require, and every input text, the
pre-process closure works on the text trimmed by `TrimSpace` when `ExtractionTrim` is set and
on the text itself otherwise: with an empty regex it returns that text unchanged; with a
non-empty regex it returns the submatch at `ExtractionRegexIndex` of the submatch list of the
regex on that text when the index is below the length of the list, and fails with an error
when it is not, so also when the regex does not match. -/
theorem preprocess_closure_behaviour (lib : StdLib) (c : config.SourceConfiguration)
    (s : source) (hregex : CreateSource.valueRegex lib c.Values [] = .ok s.valueRegex)
    (v : config.SourceValueConfiguration) (hv : v ∈ c.Values)
    (hindex : 0 ≤ v.ExtractionRegexIndex) (input : String) :
    (v.ExtractionRegex.length = 0 →
      GetSourceValue.sourceValuePreprocess lib s v input =
        .returned (if v.ExtractionTrim then TrimSpace input else input) none) ∧
    (v.ExtractionRegex.length ≠ 0 →
      ((lib.FindStringSubmatch v.ExtractionRegex
          (if v.ExtractionTrim then TrimSpace input else input)).length
            ≤ v.ExtractionRegexIndex →
        GetSourceValue.sourceValuePreprocess lib s v input =
          .returned "" (some "source: source value extraction regex index out of matches range")) ∧
      (v.ExtractionRegexIndex < (lib.FindStringSubmatch v.ExtractionRegex
          (if v.ExtractionTrim then TrimSpace input else input)).length →
        ∃ sub, (lib.FindStringSubmatch v.ExtractionRegex
            (if v.ExtractionTrim then TrimSpace input else input)).get?
              v.ExtractionRegexIndex.toNat = some sub ∧
          GetSourceValue.sourceValuePreprocess lib s v input = .returned sub none)) := by
  constructor
  · intro hlen
    have hnone := valueRegex_lookup_none lib c.Values [] s.valueRegex hregex v.ExtractionRegex
      rfl hlen
    simp only [GetSourceValue.sourceValuePreprocess, hnone]
  · intro hlen
    have hsome := valueRegex_lookup_some lib c.Values [] s.valueRegex hregex v.ExtractionRegex
      (Or.inr ⟨v, hv, rfl, hlen⟩)
    constructor
    · intro hout
      have hge : v.ExtractionRegexIndex ≥ ((lib.FindStringSubmatch v.ExtractionRegex
          (if v.ExtractionTrim then TrimSpace input else input)).length : Int) := hout
      simp only [GetSourceValue.sourceValuePreprocess, hsome, hge, if_true]
    · intro hlt
      have hnge : ¬ v.ExtractionRegexIndex ≥ ((lib.FindStringSubmatch v.ExtractionRegex
          (if v.ExtractionTrim then TrimSpace input else input)).length : Int) := not_le.mpr hlt
      have hnneg : ¬ v.ExtractionRegexIndex < 0 := not_lt.mpr hindex
      have hnat : v.ExtractionRegexIndex.toNat < (lib.FindStringSubmatch v.ExtractionRegex
          (if v.ExtractionTrim then TrimSpace input else input)).length := by
        omega
      refine ⟨_, List.get?_eq_get hnat, ?_⟩
      simp only [GetSourceValue.sourceValuePreprocess, hsome, hnge, hnneg, if_false]
      congr 1
      simp [List.getD, List.getElem?_eq_getElem hnat]

/-- A value configuration that `isValid` accepts has a group index of at least zero. -/
theorem isValid_index_nonneg (lib : StdLib) (v : config.SourceValueConfiguration)
    (h : (v.isValid lib).1 = true) : 0 ≤ v.ExtractionRegexIndex := by
  unfold config.SourceValueConfiguration.isValid at h
  by_contra hneg
  have hlt : v.ExtractionRegexIndex < 0 := not_le.mp hneg
  split_ifs at h <;> simp at h

/-- Witness of C25: the value "price" on the text of the scenario, for the source "stock" with
the document of the scenario in its cache. -/
theorem preprocess_closure_behaviour_witness :
    CreateSource.valueRegex scenarioLib stockSource.Values [] = .ok warmStockInstance.valueRegex ∧
    warmStockInstance.htmlContentCache.isSet = true ∧
    (0 : Int) ≤ priceValue.ExtractionRegexIndex ∧
    GetSourceValue.sourceValuePreprocess scenarioLib warmStockInstance priceValue " $123.45 " =
      .returned "123.45" none :=
  have h := (preprocess_closure_behaviour scenarioLib stockSource warmStockInstance (by decide)
    priceValue (by decide) (by decide) " $123.45 ").2 (by decide)
  ⟨by decide, by decide, by decide, by
    obtain ⟨sub, hsub, hret⟩ := h.2 (by decide)
    have : sub = "123.45" := by
      have h2 : (scenarioLib.FindStringSubmatch priceValue.ExtractionRegex
        (if priceValue.ExtractionTrim then TrimSpace " $123.45 " else " $123.45 ")).get?
          priceValue.ExtractionRegexIndex.toNat = some "123.45" := by decide
      rw [h2] at hsub
      exact (Option.some.inj hsub).symm
    rw [← this]; exact hret⟩

/-- C26. `Validate` accepts a caching lifetime of 9223372037 seconds, for which the product
with 10^9 wraps around in 64 bits to a negative duration: `GetHtmlContent` stores the document
with an expiry long past, earlier than the one it stores for a lifetime of 60 seconds, and a
second `GetValues` thirty seconds later fetches the document again. -/
theorem ttl_multiplication_wraps :
    config.Validate scenarioLib longLifetimeConfiguration = (true, "") ∧
    wrapInt 64 (longLifetimeSource.CachingLifeTimeSeconds * 1000000000) =
      -9223372036709551616 ∧
    (longLifetimeInstance.GetHtmlContent scenarioLib scenarioWorld).2.1.htmlContentCache.ttlEnd
      = -7523372036710 ∧
    (stockSourceInstance.GetHtmlContent scenarioLib scenarioWorld).2.1.htmlContentCache.ttlEnd
      = 1700000060000 ∧
    ((longLifetimeInstance.GetValues scenarioLib scenarioWorld (some ["price"])).2.1.GetValues
      scenarioLib { soonWorld with transport := scenarioWorld.transport }
        (some ["price"])).2.2.attempts = 2 := by
  decide

/-- Up to 9223372036 seconds the lifetime survives the multiplication unchanged. -/
theorem ttl_exact_below_overflow (lifetime : Int) (h0 : 0 ≤ lifetime)
    (h1 : lifetime ≤ 9223372036) :
    wrapInt 64 (lifetime * 1000000000) = lifetime * 1000000000 := by
  apply wrapInt_of_range 64 _ (by decide)
  · norm_num; nlinarith
  · norm_num; nlinarith

/-- C27. For every source, world and non-nil list of requested names that the key check
accepts: when the document is obtained and `htmlquery` panics with `p` while it evaluates the
XPath of the first requested name, `GetValues` neither returns a mapping nor an error; the
panic `p` unwinds through it. -/
theorem getvalues_panics_on_query_panic (lib : StdLib) (s : source) (w : World) (key : String)
    (rest : List String) (c : config.SourceValueConfiguration) (html : content.htmlContent)
    (p : String)
    (hvalid : s.AreValueKeysValid (some (key :: rest)) = .ok true)
    (hhtml : (s.GetHtmlContent lib w).1 = .ok html)
    (hfind : GetSourceValue.find key s.cfg.Values none = some c)
    (hstrategy : c.ExtractionStrategy = config.ExtractionStrategy.First ∨
      c.ExtractionStrategy = config.ExtractionStrategy.Single)
    (hquery : lib.QueryAll html.document c.Xpath = .error (.panic p)) :
    (s.GetValues lib w (some (key :: rest))).1 = .error (.panic p) := by
  obtain ⟨hcfg, hregex, -, -, -⟩ := GetHtmlContent_spec lib s w
  have hvalue : s.GetSourceValue lib key html = .error (.panic p) := by
    unfold source.GetSourceValue
    simp only [hfind]
    rcases hstrategy with h1 | h2
    · simp only [h1, if_true, content.htmlContent.GetFirstElement, content.Query, hquery]
    · have h1 : ¬ config.ExtractionStrategy.Single = config.ExtractionStrategy.First := by
        decide
      simp only [h2, h1, if_false, if_true, content.htmlContent.GetSingleElement, hquery]
  cases hg : s.GetHtmlContent lib w with
  | mk r more =>
    obtain ⟨s1, w1⟩ := more
    rw [hg] at hcfg hregex hhtml
    simp only at hcfg hregex hhtml
    subst hhtml
    simp only [source.GetValues, source.GetValuesNoLock, hvalid, hg, Option.getD_some]
    rw [loop_congr lib s s1 html (key :: rest) [] hcfg hregex]
    unfold GetValuesNoLock.loop
    simp only [hvalue]
    rfl

/-- Witness of C27: the source "stock" of a configuration that `Validate` accepts, whose value
"price" is selected by the expression `//span[contains(., 2)]`. -/
theorem getvalues_panics_on_query_panic_witness :
    config.Validate containsLib containsConfiguration = (true, "") ∧
    CreateSource containsLib containsSource = .ok containsInstance ∧
    (containsInstance.GetValues containsLib scenarioWorld (some ["price"])).1 =
      .error (.panic "contains() function argument type must be string") :=
  ⟨by decide, rfl,
    getvalues_panics_on_query_panic containsLib containsInstance scenarioWorld "price" []
      containsValue
      { document := { inner := scenarioDocument, outer := scenarioDocument, attrs := [] } }
      "contains() function argument type must be string"
      (by decide) (by decide) (by decide) (Or.inl (by decide)) (by decide)⟩

/-- With the nil list `GetValues` panics as well, `IsDistinct` refusing a nil slice. -/
theorem getvalues_nil_panics :
    (stockSourceInstance.GetValues scenarioLib scenarioWorld none).1 =
      .error (.panic "utils: provided slice is nil") := by
  decide

/-- Where the library raises no panic in a query, `GetValues` on a non-nil list returns either
a mapping or an error. -/
theorem getvalues_returns_without_query_panic (lib : StdLib) (s : source) (w : World)
    (keys : List String)
    (hquery : ∀ doc xpath p, lib.QueryAll doc xpath ≠ .error (.panic p)) :
    (∃ m, (s.GetValues lib w (some keys)).1 = .ok m) ∨
      ∃ msg, (s.GetValues lib w (some keys)).1 = .error (.error msg) := by
  have hshape : ∀ r : Except Failure (GoMap String Value), (∀ p, r ≠ .error (.panic p)) →
      (∃ m, r = .ok m) ∨ ∃ msg, r = .error (.error msg) := by
    intro r hr
    match r, hr with
    | .ok m, _ => exact Or.inl ⟨m, rfl⟩
    | .error (.error msg), _ => exact Or.inr ⟨msg, rfl⟩
    | .error (.panic p), hr => exact absurd rfl (hr p)
  apply hshape
  intro p
  have hvalid : ∃ b, s.AreValueKeysValid (some keys) = .ok b := by
    unfold source.AreValueKeysValid
    rw [utils.IsDistinct_some]
    cases decide keys.Nodup <;> exact ⟨_, rfl⟩
  obtain ⟨b, hb⟩ := hvalid
  simp only [source.GetValues, source.GetValuesNoLock, hb]
  cases b with
  | false => simp [wrapError]
  | true =>
    simp only []
    obtain ⟨-, -, -, hnopanic, -⟩ := GetHtmlContent_spec lib s w
    cases hg : s.GetHtmlContent lib w with
    | mk r rest =>
      obtain ⟨s1, w1⟩ := rest
      rw [hg] at hnopanic
      simp only at hnopanic
      cases r with
      | error f =>
        cases f with
        | error m => simp [wrapError]
        | panic q => exact absurd rfl (hnopanic q)
      | ok html =>
        simp only [Option.getD_some]
        apply wrapError_no_panic
        intro q hq
        by_cases hall : ∀ k ∈ keys, ∃ v, s1.GetSourceValue lib k html = .ok v
        · have hnd : keys.Nodup := AreValueKeysValid_true_nodup s keys hb
          obtain ⟨m, hm, -⟩ := loop_succeeds lib s1 html keys [] hall hnd (by simp [GoMap.keys])
          rw [hm] at hq
          simp at hq
        · have hbad : ∃ k ∈ keys, ∃ f, s1.GetSourceValue lib k html = .error f := by
            by_contra hno
            apply hall
            intro k hk
            cases hv : s1.GetSourceValue lib k html with
            | ok v => exact ⟨v, rfl⟩
            | error f => exact absurd ⟨k, hk, f, hv⟩ hno
          obtain ⟨f, hf, hmsg⟩ := loop_fails lib s1 html keys [] hbad
          obtain ⟨msg, rfl⟩ := hmsg (fun k _ p' =>
            GetSourceValue_no_panic lib s1 k html p' (fun x => hquery _ x p'))
          rw [hf] at hq
          simp at hq

/-- C28. For every source whose key table is the one `CreateSource` builds from its
configuration, whatever its document cache holds, and every list of requested names that holds
a name twice or a name not declared among the values of the source, `GetValues` returns its
error with the source, so also its document cache, and the world, so also the count of
requests made, exactly as they were before the call. -/
theorem rejected_keys_touch_nothing (lib : StdLib) (c : config.SourceConfiguration)
    (s : source) (hkeys : s.valueKeys = CreateSource.valueKeys c.Values []) (w : World)
    (keys : List String)
    (hbad : ¬ keys.Nodup ∨ ∃ k ∈ keys, k ∉ c.Values.map (fun v => v.Name)) :
    s.GetValues lib w (some keys) =
      (.error (.error
        "source: failed to access the source values: source: invalid values keys provided"),
        s, w) := by
  have hvalid := AreValueKeysValid_some hkeys keys
  have hfalse : decide (keys.Nodup ∧ ∀ k ∈ keys, k ∈ c.Values.map (fun v => v.Name)) = false := by
    rw [decide_eq_false_iff_not]
    rintro ⟨hn, hd⟩
    rcases hbad with hbad | ⟨k, hk, hnot⟩
    · exact hbad hn
    · exact hnot (hd k hk)
  rw [hfalse] at hvalid
  simp only [source.GetValues, source.GetValuesNoLock, hvalid, wrapError]
  rfl

/-- Witness of C28: the source "stock", with the document of the scenario in its cache, is
asked thirty seconds later for "price" and the undeclared "volume". -/
theorem rejected_keys_touch_nothing_witness :
    warmStockInstance.valueKeys = CreateSource.valueKeys stockSource.Values [] ∧
    ("volume" : String) ∉ stockSource.Values.map (fun v => v.Name) ∧
    warmStockInstance.htmlContentCache.isSet = true ∧
    (warmStockInstance.GetValues scenarioLib soonWorld (some ["price", "volume"])).2.2.attempts
      = soonWorld.attempts ∧
    (warmStockInstance.GetValues scenarioLib soonWorld (some ["price", "volume"])).2.1
      = warmStockInstance :=
  have h := rejected_keys_touch_nothing scenarioLib stockSource warmStockInstance (by decide)
    soonWorld ["price", "volume"] (Or.inr ⟨"volume", by simp, by decide⟩)
  ⟨by decide, by decide, by decide, by rw [h], by rw [h]⟩

end source

end ApiKit
